import Mathlib

/-! # bitrise-step-log-extract: a shallow embedding of `main.go`

The step reads its configuration from the environment, asks the Bitrise API for
the builds of a workflow, fetches the log of the selected build, scans the log
chunks with the pattern `<ARTIFACT_NAME> (\d+.\d+)+` and publishes the first
captured value through `bitrise envman add`.

The embedding has three layers:

* `Regexp`: the part of Go's `regexp` package that `mainE` calls
  (`MustCompile`, `FindStringSubmatch`), as a parser for a fragment of the RE2
  syntax and a leftmost-first backtracking matcher. The fragment holds
  literals, the dot, the escapes of punctuation and of control characters, the
  Perl classes, bracketed classes with ranges and negation, capturing groups
  and `(?:`, alternation, the operators `*`, `+`, `?` and their lazy forms, and
  the quotation `\Q ... \E`. Anchors, counted repetitions, flags, named groups,
  Unicode and POSIX classes, a loop around an expression that can match the
  empty string, and groups nested deeper than `maxDepth` are outside the
  fragment: such a pattern is reported as `Compiled.unsupported` and nothing is
  claimed about it. The limits of `regexp/syntax` on the size of an expression
  are far above what an environment variable can hold and are not modelled.
* the outside world (`World`): the HTTP transport, the JSON decoder and the
  `bitrise` executable are oracles; every effect is recorded in a trace of
  `Event`s.
* the functions of `main.go`, under their own names.

Go strings are modelled by Lean strings (sequences of Unicode characters).
-/

set_option autoImplicit false

namespace LogExtract

/-! ## Regular expressions: syntax -/

namespace Regexp

/-- Abstract syntax of the modelled fragment of RE2. -/
inductive Regex where
  /-- the empty pattern -/
  | empty
  /-- one literal character -/
  | lit (c : Char)
  /-- the dot: any character but a newline -/
  | any
  /-- a character class: inclusive ranges, possibly negated -/
  | cls (neg : Bool) (ranges : List (Char × Char))
  /-- concatenation -/
  | seq (a b : Regex)
  /-- alternation, the left branch preferred -/
  | alt (a b : Regex)
  /-- zero or more repetitions -/
  | star (greedy : Bool) (r : Regex)
  /-- one or more repetitions -/
  | plus (greedy : Bool) (r : Regex)
  /-- zero or one occurrence -/
  | opt (greedy : Bool) (r : Regex)
  /-- capturing group number `i` -/
  | group (i : Nat) (r : Regex)
  deriving Repr, DecidableEq, Inhabited

/-- The bindings of the capturing groups, the most recent one first. -/
abbrev Caps := List (Nat × List Char)

/-- One way of matching: the input that is left and the groups captured. -/
abbrev Thread := List Char × Caps

/-- Membership of a character in a list of inclusive ranges. -/
def inRanges (c : Char) (ranges : List (Char × Char)) : Bool :=
  ranges.any (fun r => decide (r.1.toNat ≤ c.toNat) && decide (c.toNat ≤ r.2.toNat))

/-- The ranges of the Perl class `\d`. -/
def digitRanges : List (Char × Char) := [('0', '9')]

/-- The ranges of the Perl class `\w`. -/
def wordRanges : List (Char × Char) := [('0', '9'), ('A', 'Z'), ('_', '_'), ('a', 'z')]

/-- The ranges of the Perl class `\s`. -/
def spaceRanges : List (Char × Char) := [('\t', '\n'), ('\x0c', '\r'), (' ', ' ')]

/-- The loop of a repetition. `body` matches one iteration; the results are listed
in order of preference. An iteration that consumes nothing ends the loop, so that
`fuel = length of the input + 1` is always enough. -/
def starLoop (body : List Char → Caps → List Thread) (greedy : Bool) :
    Nat → List Char → Caps → List Thread
  | 0, s, caps => [(s, caps)]
  | fuel + 1, s, caps =>
    let more := ((body s caps).filter (fun t => decide (t.1.length < s.length))).flatMap
      (fun t => starLoop body greedy fuel t.1 t.2)
    if greedy then more ++ [(s, caps)] else (s, caps) :: more

/-- All the ways `r` matches a prefix of `s`, in the order of preference of a
leftmost-first (Perl-like) matcher: the first element is the match that
`regexp` reports when the match starts at `s`. -/
def matchAt : Regex → List Char → Caps → List Thread
  | .empty, s, caps => [(s, caps)]
  | .lit c, s, caps =>
    match s with
    | [] => []
    | d :: rest => if d = c then [(rest, caps)] else []
  | .any, s, caps =>
    match s with
    | [] => []
    | d :: rest => if d = '\n' then [] else [(rest, caps)]
  | .cls neg ranges, s, caps =>
    match s with
    | [] => []
    | d :: rest => if inRanges d ranges != neg then [(rest, caps)] else []
  | .seq a b, s, caps => (matchAt a s caps).flatMap (fun t => matchAt b t.1 t.2)
  | .alt a b, s, caps => matchAt a s caps ++ matchAt b s caps
  | .star greedy r, s, caps => starLoop (fun s1 c1 => matchAt r s1 c1) greedy (s.length + 1) s caps
  | .plus greedy r, s, caps =>
    (matchAt r s caps).flatMap
      (fun t => starLoop (fun s1 c1 => matchAt r s1 c1) greedy (t.1.length + 1) t.1 t.2)
  | .opt greedy r, s, caps =>
    if greedy then matchAt r s caps ++ [(s, caps)] else (s, caps) :: matchAt r s caps
  | .group i r, s, caps =>
    (matchAt r s caps).map (fun t => (t.1, (i, s.take (s.length - t.1.length)) :: t.2))

/-- The text bound to group `i`, empty when the group took no part in the match. -/
def capText (caps : Caps) (i : Nat) : List Char :=
  match caps.find? (fun b => b.1 == i) with
  | some b => b.2
  | none => []

/-- The slice that `FindStringSubmatch` builds from a match starting at `s`:
the matched text, then the text of the groups `1 .. n`. -/
def submatches (n : Nat) (s : List Char) (t : Thread) : List String :=
  String.mk (s.take (s.length - t.1.length)) ::
    (List.range n).map (fun i => String.mk (capText t.2 (i + 1)))

/-- Leftmost match: the first start position at which the pattern matches. -/
def findFrom (re : Regex) (n : Nat) : List Char → Option (List String)
  | [] =>
    match (matchAt re [] []).head? with
    | some t => some (submatches n [] t)
    | none => none
  | c :: rest =>
    match (matchAt re (c :: rest) []).head? with
    | some t => some (submatches n (c :: rest) t)
    | none => findFrom re n rest

/-! ## Regular expressions: the parser

The parser reads the pattern one character at a time, as the loop of
`regexp/syntax.Parse` does, keeping a frame for every group that is open. -/

/-- The error codes of `regexp/syntax` that the fragment can raise. -/
inductive ErrorCode where
  | missingParen
  | unexpectedParen
  | missingBracket
  | invalidCharRange
  | trailingBackslash
  | missingRepeatArgument
  | invalidRepeatOp
  deriving Repr, DecidableEq, Inhabited

/-- Why no regular expression was produced. -/
inductive Fail where
  /-- the pattern is rejected by `regexp/syntax` -/
  | invalid (code : ErrorCode)
  /-- the pattern uses syntax outside the modelled fragment -/
  | unsupported
  deriving Repr, DecidableEq, Inhabited

/-- The result of compiling a pattern. -/
inductive Compiled where
  /-- a regular expression and its number of capturing groups -/
  | ok (re : Regex) (numSubexp : Nat)
  /-- the pattern is rejected: `MustCompile` panics -/
  | invalid (code : ErrorCode)
  /-- outside the modelled fragment -/
  | unsupported
  deriving Repr, DecidableEq, Inhabited

/-- What the parser holds for the top level or for one open group. -/
structure Frame where
  /-- the number of the group, `none` for the top level and for `(?:` -/
  grp : Option Nat
  /-- the alternatives already closed by `|`, the most recent first -/
  alts : List Regex
  /-- the items of the alternative being read, the most recent first -/
  items : List Regex
  deriving Repr, DecidableEq, Inhabited

/-- Where the parser is inside the pattern. -/
inductive Mode where
  | normal
  /-- after a backslash -/
  | escape
  /-- after `\Q`: every character is a literal, up to `\E` or the end -/
  | quote
  /-- after a backslash inside `\Q` -/
  | quoteEsc
  /-- after `(` -/
  | afterOpen
  /-- after `(?` -/
  | afterOpenQ
  /-- after `[` -/
  | clsOpen
  /-- inside a class, at the start of an item -/
  | clsItem (first : Bool)
  /-- inside a class, after a backslash; `lo` is set when the escape ends a range -/
  | clsEscape (lo : Option Char)
  /-- inside a class, after a character that may start a range -/
  | clsAfterLo (lo : Char)
  /-- inside a class, after a character and `-` -/
  | clsDash (lo : Char)
  deriving Repr, DecidableEq, Inhabited

/-- The state of the parser. -/
structure PState where
  mode : Mode
  /-- the innermost open frame -/
  cur : Frame
  /-- the enclosing frames, the innermost first -/
  outer : List Frame
  /-- the number of capturing groups opened so far -/
  ncap : Nat
  /-- the previous token was a repetition operator -/
  lastRepeat : Bool
  /-- the previous character was a repetition operator, which `?` makes lazy -/
  canLazy : Bool
  /-- the class being read is negated -/
  clsNeg : Bool
  /-- the ranges of the class being read -/
  clsRanges : List (Char × Char)
  deriving Repr, DecidableEq, Inhabited

/-- The state before the first character. -/
def PState.init : PState :=
  { mode := .normal, cur := { grp := none, alts := [], items := [] }, outer := [],
    ncap := 0, lastRepeat := false, canLazy := false, clsNeg := false, clsRanges := [] }

/-- Concatenation of the items of one alternative. -/
def mkSeq (items : List Regex) : Regex := items.foldr Regex.seq Regex.empty

/-- Alternation of the alternatives of one frame. -/
def mkAlt : List Regex → Regex
  | [] => .empty
  | [r] => r
  | r :: rs => .alt r (mkAlt rs)

/-- The regular expression of a frame whose end has been reached. -/
def Frame.close (f : Frame) : Regex :=
  let body := mkAlt ((mkSeq f.items.reverse :: f.alts).reverse)
  match f.grp with
  | some i => .group i body
  | none => body

/-- Whether the expression can match the empty string. -/
def nullable : Regex → Bool
  | .empty => true
  | .lit _ => false
  | .any => false
  | .cls _ _ => false
  | .seq a b => nullable a && nullable b
  | .alt a b => nullable a || nullable b
  | .star _ _ => true
  | .plus _ r => nullable r
  | .opt _ _ => true
  | .group _ r => nullable r

/-- ASCII letters and digits: after a backslash they are never literals. -/
def isAlnum (c : Char) : Bool :=
  inRanges c [('0', '9'), ('A', 'Z'), ('a', 'z')]

/-- The character denoted by a backslash followed by `c`, for the escapes of the
fragment: the control characters and the ASCII punctuation. -/
def escapeChar (c : Char) : Option Char :=
  if c = 'n' then some '\n'
  else if c = 't' then some '\t'
  else if c = 'r' then some '\r'
  else if c = 'f' then some '\x0c'
  else if c = 'v' then some '\x0b'
  else if c = 'a' then some '\x07'
  else if decide (c.toNat < 128) && !isAlnum c then some c
  else none

/-- The Perl classes `\d \D \s \S \w \W`. -/
def perlClass (c : Char) : Option Regex :=
  if c = 'd' then some (.cls false digitRanges)
  else if c = 'D' then some (.cls true digitRanges)
  else if c = 's' then some (.cls false spaceRanges)
  else if c = 'S' then some (.cls true spaceRanges)
  else if c = 'w' then some (.cls false wordRanges)
  else if c = 'W' then some (.cls true wordRanges)
  else none

/-- The ranges of a Perl class that may stand inside brackets. -/
def perlClassRanges (c : Char) : Option (List (Char × Char)) :=
  if c = 'd' then some digitRanges
  else if c = 's' then some spaceRanges
  else if c = 'w' then some wordRanges
  else none

/-- Deepest nesting of groups that the model follows; `regexp/syntax` rejects
expressions whose tree is higher than 1000. -/
def maxDepth : Nat := 200

/-- Push an item on the alternative being read. -/
def PState.push (st : PState) (r : Regex) : PState :=
  { st with mode := .normal, cur := { st.cur with items := r :: st.cur.items },
            lastRepeat := false, canLazy := false }

/-- Open a group. -/
def PState.openGroup (st : PState) (capture : Bool) : Except Fail PState :=
  if maxDepth ≤ st.outer.length then .error .unsupported
  else if capture then
    .ok { st with mode := .normal, cur := { grp := some (st.ncap + 1), alts := [], items := [] },
                  outer := st.cur :: st.outer, ncap := st.ncap + 1,
                  lastRepeat := false, canLazy := false }
  else
    .ok { st with mode := .normal, cur := { grp := none, alts := [], items := [] },
                  outer := st.cur :: st.outer, lastRepeat := false, canLazy := false }

/-- Apply a repetition operator to the last item. -/
def PState.repeat (st : PState) (op : Bool → Regex → Regex) (loop : Bool) : Except Fail PState :=
  if st.lastRepeat then .error (.invalid .invalidRepeatOp)
  else
    match st.cur.items with
    | [] => .error (.invalid .missingRepeatArgument)
    | r :: rest =>
      if loop && nullable r then .error .unsupported
      else .ok { st with cur := { st.cur with items := op true r :: rest },
                         lastRepeat := true, canLazy := true }

/-- Turn the repetition just read into its lazy form. -/
def lazyOf : Regex → Regex
  | .star _ r => .star false r
  | .plus _ r => .plus false r
  | .opt _ r => .opt false r
  | r => r

/-- Close the class being read. -/
def PState.closeClass (st : PState) (ranges : List (Char × Char)) : PState :=
  (st.push (.cls st.clsNeg ranges.reverse))

/-- One character in normal mode. -/
def stepNormal (st : PState) (c : Char) : Except Fail PState :=
  if c = '(' then .ok { st with mode := .afterOpen, lastRepeat := false, canLazy := false }
  else if c = ')' then
    match st.outer with
    | [] => .error (.invalid .unexpectedParen)
    | parent :: outer =>
      .ok { st with cur := { parent with items := st.cur.close :: parent.items }, outer := outer,
                    lastRepeat := false, canLazy := false }
  else if c = '|' then
    .ok { st with cur := { st.cur with alts := mkSeq st.cur.items.reverse :: st.cur.alts, items := [] },
                  lastRepeat := false, canLazy := false }
  else if c = '*' then st.repeat Regex.star true
  else if c = '+' then st.repeat Regex.plus true
  else if c = '?' then
    if st.canLazy then
      match st.cur.items with
      | [] => .error .unsupported
      | r :: rest => .ok { st with cur := { st.cur with items := lazyOf r :: rest }, canLazy := false }
    else st.repeat Regex.opt false
  else if c = '.' then .ok (st.push .any)
  else if c = '[' then
    .ok { st with mode := .clsOpen, clsNeg := false, clsRanges := [],
                  lastRepeat := false, canLazy := false }
  else if c = '\\' then .ok { st with mode := .escape, lastRepeat := false, canLazy := false }
  else if c = '^' || c = '$' || c = '{' then .error .unsupported
  else .ok (st.push (.lit c))

/-- One character of the pattern. -/
def step (st : PState) (c : Char) : Except Fail PState :=
  match st.mode with
  | .normal => stepNormal st c
  | .escape =>
    if c = 'Q' then .ok { st with mode := .quote }
    else
      match perlClass c with
      | some r => .ok (st.push r)
      | none =>
        match escapeChar c with
        | some d => .ok (st.push (.lit d))
        | none => .error .unsupported
  | .quote =>
    if c = '\\' then .ok { st with mode := .quoteEsc }
    else .ok { st.push (.lit c) with mode := .quote }
  | .quoteEsc =>
    if c = 'E' then .ok { st with mode := .normal }
    else if c = '\\' then .ok { st.push (.lit '\\') with mode := .quoteEsc }
    else .ok { (st.push (.lit '\\')).push (.lit c) with mode := .quote }
  | .afterOpen =>
    if c = '?' then .ok { st with mode := .afterOpenQ }
    else
      match st.openGroup true with
      | .ok st1 => stepNormal st1 c
      | .error e => .error e
  | .afterOpenQ =>
    if c = ':' then st.openGroup false else .error .unsupported
  | .clsOpen =>
    if c = '^' then .ok { st with mode := .clsItem true, clsNeg := true }
    else if c = '\\' then .ok { st with mode := .clsEscape none }
    else if c = '[' then .error .unsupported
    else .ok { st with mode := .clsAfterLo c }
  | .clsItem first =>
    if c = ']' && !first then .ok (st.closeClass st.clsRanges)
    else if c = '\\' then .ok { st with mode := .clsEscape none }
    else if c = '[' then .error .unsupported
    else .ok { st with mode := .clsAfterLo c }
  | .clsEscape none =>
    match perlClassRanges c with
    | some rs => .ok { st with mode := .clsItem false, clsRanges := rs.reverse ++ st.clsRanges }
    | none =>
      match escapeChar c with
      | some d => .ok { st with mode := .clsAfterLo d }
      | none => .error .unsupported
  | .clsEscape (some lo) =>
    match escapeChar c with
    | some hi =>
      if hi.toNat < lo.toNat then .error (.invalid .invalidCharRange)
      else .ok { st with mode := .clsItem false, clsRanges := (lo, hi) :: st.clsRanges }
    | none => .error .unsupported
  | .clsAfterLo lo =>
    if c = '-' then .ok { st with mode := .clsDash lo }
    else if c = ']' then .ok (st.closeClass ((lo, lo) :: st.clsRanges))
    else if c = '\\' then .ok { st with mode := .clsEscape none, clsRanges := (lo, lo) :: st.clsRanges }
    else if c = '[' then .error .unsupported
    else .ok { st with mode := .clsAfterLo c, clsRanges := (lo, lo) :: st.clsRanges }
  | .clsDash lo =>
    if c = ']' then .ok (st.closeClass (('-', '-') :: (lo, lo) :: st.clsRanges))
    else if c = '\\' then .ok { st with mode := .clsEscape (some lo) }
    else if c.toNat < lo.toNat then .error (.invalid .invalidCharRange)
    else .ok { st with mode := .clsItem false, clsRanges := (lo, c) :: st.clsRanges }

/-- Run the parser over the characters of the pattern. -/
def parseChars : PState → List Char → Except Fail PState
  | st, [] => .ok st
  | st, c :: cs =>
    match step st c with
    | .ok st1 => parseChars st1 cs
    | .error e => .error e

/-- The end of the pattern outside brackets and escapes: every group must
have been closed. -/
def finishNormal (st : PState) : Compiled :=
  match st.outer with
  | [] => .ok st.cur.close st.ncap
  | _ :: _ => .invalid .missingParen

/-- The end of the pattern. -/
def finish (st : PState) : Compiled :=
  match st.mode with
  | .normal => finishNormal st
  | .escape => .invalid .trailingBackslash
  | .quote => finishNormal st
  | .quoteEsc => finishNormal (st.push (.lit '\\'))
  | .afterOpen => .invalid .missingParen
  | .afterOpenQ => .unsupported
  | _ => .invalid .missingBracket

/-- Model of `regexp.Compile`. -/
def compile (pattern : String) : Compiled :=
  match parseChars PState.init pattern.toList with
  | .ok st => finish st
  | .error (.invalid code) => .invalid code
  | .error .unsupported => .unsupported

/-- Model of `(*Regexp).FindStringSubmatch`: `none` is the nil slice. -/
def FindStringSubmatch (re : Regex) (numSubexp : Nat) (s : String) : Option (List String) :=
  findFrom re numSubexp s.toList

/-! ## The pattern of an artifact name without metacharacters -/

/-- The characters that have a meaning in a pattern (those that
`regexp.QuoteMeta` escapes). -/
def metaChars : List Char :=
  ['\\', '.', '+', '*', '?', '(', ')', '|', '[', ']', '{', '}', '^', '$']

/-- The expression `\d+`. -/
def digits : Regex := .plus true (.cls false digitRanges)

/-- The expression `(\d+.\d+)`. -/
def valueGroup : Regex := .group 1 (.seq digits (.seq .any (.seq digits .empty)))

/-- The expression of `<name> (\d+.\d+)+` for a name without metacharacters. -/
def literalPattern (name : List Char) : Regex :=
  mkSeq (name.map Regex.lit ++ [.lit ' ', .plus true valueGroup])

/-- The parser state after a run of literal characters at the top level. -/
def litState (items : List Regex) : PState :=
  { PState.init with cur := { grp := none, alts := [], items := items } }

/-- Whether a name is free of metacharacters. -/
def literalChars (name : List Char) : Bool :=
  name.all (fun c => !metaChars.contains c)

/-- The class `\d` as a test. -/
def isDigit (c : Char) : Bool := inRanges c digitRanges

/-- The inputs left after `\d+`, the longest run of digits first. -/
def digitRests : List Char → List (List Char)
  | [] => []
  | c :: s => if isDigit c then digitRests s ++ [s] else []

/-- The inputs left after `.\d+`. -/
def dotRests : List Char → List (List Char)
  | [] => []
  | c :: s => if c = '\n' then [] else digitRests s

/-- The inputs left after `\d+.\d+`, in order of preference. -/
def valueRests (s : List Char) : List (List Char) :=
  (digitRests s).flatMap dotRests

/-- Remove the characters of `name` from the front of the input. -/
def dropLits : List Char → List Char → Option (List Char)
  | [], s => some s
  | _ :: _, [] => none
  | c :: cs, d :: s => if d = c then dropLits cs s else none

/-- One iteration of `\d*`. -/
def digitStep (s : List Char) (caps : Caps) : List Thread :=
  matchAt (.cls false digitRanges) s caps

/-- The form of a text matched by `\d+.\d+`: digits, one character that is not
a newline, digits. -/
def ValueShape (v : List Char) : Prop :=
  ∃ d1 c d2, v = d1 ++ c :: d2 ∧ d1 ≠ [] ∧ d1.all isDigit = true ∧ c ≠ '\n' ∧
    d2 ≠ [] ∧ d2.all isDigit = true

end Regexp

/-! ## The data of `main.go` -/

/-- An entry of `Build.Data`. The step reads `Slug` only; the timestamps, the
untyped fields and `original_build_params` of the Go struct carry no behaviour
and are left out. -/
structure BuildData where
  Slug : String
  Status : Int
  StatusText : String
  IsOnHold : Bool
  Branch : String
  BuildNumber : Int
  CommitHash : String
  CommitMessage : String
  Tag : String
  TriggeredWorkflow : String
  StackConfigType : String
  StackIdentifier : String
  deriving Repr, DecidableEq, Inhabited

/-- The field `Build.Paging`. -/
structure Paging where
  TotalItemCount : Int
  PageItemLimit : Int
  Next : String
  deriving Repr, DecidableEq, Inhabited

/-- The Go type `Build`: the decoded answer of the builds endpoint. -/
structure Build where
  Data : List BuildData
  Paging : Paging
  deriving Repr, DecidableEq, Inhabited

/-- An entry of `Logs.LogChunks`. -/
structure LogChunk where
  Chunk : String
  Position : Int
  deriving Repr, DecidableEq, Inhabited

/-- The Go type `Logs`: the decoded answer of the log endpoint. -/
structure Logs where
  ExpiringRawLogURL : String
  GeneratedLogChunksNum : Int
  IsArchived : Bool
  LogChunks : List LogChunk
  deriving Repr, DecidableEq, Inhabited

/-- What the step uses of an `http.Response`. -/
structure Response where
  StatusCode : Int
  /-- the bytes of the body -/
  Body : String
  /-- the error of `Body.Close()`, if any -/
  CloseErr : Option String
  deriving Repr, DecidableEq, Inhabited

/-- The Go type `Client`. -/
structure Client where
  authToken : String
  /-- the field `httpClient.Timeout`, in seconds -/
  timeoutSeconds : Nat
  deriving Repr, DecidableEq, Inhabited

/-! ## The outside world -/

/-- The process environment. -/
abbrev Env := String → Option String

/-- Model of `os.Getenv`: the empty string for a variable that is not set. -/
def Getenv (env : Env) (key : String) : String := (env key).getD ""

/-- The collaborators of the step. An `error` is modelled by its text. The two
URLs that the step requests always differ (`builds?` against `builds/`), so a
transport that is a function of the request loses no generality. -/
structure World where
  /-- the call `http.NewRequest("GET", url, nil)`: the error for a URL that does not parse -/
  newRequest : String → Option String
  /-- the call `httpClient.Do`, given the URL and the `Authorization` header -/
  roundTrip : String → String → Except String Response
  /-- the call `json.NewDecoder(body).Decode` into a `Build` -/
  decodeBuild : String → Except String Build
  /-- the call `json.NewDecoder(body).Decode` into a `Logs` -/
  decodeLogs : String → Except String Logs
  /-- the call `exec.Command(name, args...).CombinedOutput()`: the output, and the error
  (as `%#v` prints it) when the command fails -/
  runCommand : String → List String → String × Option String

/-- The observable effects, in the order in which they happen. -/
inductive Event where
  | newRequest (method url : String)
  | httpDo (url authorization : String)
  | decodeBody (body : String)
  | closeBody
  | logPrintf (text : String)
  | logInfof (text : String)
  | exec (name : String) (args : List String)
  | stdout (text : String)
  deriving Repr, DecidableEq, Inhabited

/-- Whether an event is a request sent over the network. -/
def Event.isHttp : Event → Bool
  | .httpDo _ _ => true
  | _ => false

/-- Whether an event is a run of an external command. -/
def Event.isExec : Event → Bool
  | .exec _ _ => true
  | _ => false

/-- Whether an event is a decoding of a response body. -/
def Event.isDecode : Event → Bool
  | .decodeBody _ => true
  | _ => false

/-- A run-time panic of the step. -/
inductive Panic where
  /-- a call of `regexp.MustCompile` on a pattern that does not parse -/
  | mustCompile (pattern : String) (code : Regexp.ErrorCode)
  /-- an index outside a slice -/
  | indexOutOfRange (index length : Nat)
  deriving Repr, DecidableEq, Inhabited

/-- How a call of `mainE` ends. -/
inductive Outcome where
  /-- the function returns; `none` is the nil error -/
  | returned (err : Option String)
  /-- a call of `os.Exit` inside `mainE` -/
  | exited (code : Int)
  | panicked (p : Panic)
  /-- the pattern is outside the modelled fragment of `regexp` -/
  | unmodelled
  deriving Repr, DecidableEq, Inhabited

/-- How the process ends. -/
inductive ProcessEnd where
  | exit (code : Int)
  | panic (p : Panic)
  | unmodelled
  deriving Repr, DecidableEq, Inhabited

/-- A Go `map[string]string`, the most recent binding of a key first. -/
abbrev GoMap := List (String × String)

/-- The assignment `m[k] = v`. -/
def GoMap.set (m : GoMap) (k v : String) : GoMap :=
  (k, v) :: m.filter (fun b => b.1 != k)

/-- The expression `m[k]`: the empty string for a key that is absent. -/
def GoMap.get (m : GoMap) (k : String) : String :=
  match m.find? (fun b => b.1 == k) with
  | some b => b.2
  | none => ""

/-! ## The functions of `main.go` -/

def domain : String := "https://api.bitrise.io"

def apiVersion : String := "v0.1"

/-- The function `New`: a client with a timeout of 20 seconds. -/
def New (authToken : String) : Client :=
  { authToken := authToken, timeoutSeconds := 20 }

/-- The method `Client.get`: build the request, add the `Authorization` header, send it. -/
def Client.get (c : Client) (w : World) (endpoint : String) :
    Except String Response × List Event :=
  let url := domain ++ "/" ++ apiVersion ++ "/" ++ endpoint
  match w.newRequest url with
  | some err => (.error err, [.newRequest "GET" url])
  | none =>
    let authorization := "token " ++ c.authToken
    (w.roundTrip url authorization, [.newRequest "GET" url, .httpDo url authorization])

/-- The function `responseBodyCloser`: close the body, log a failure to do so. -/
def responseBodyCloser (resp : Response) : List Event :=
  match resp.CloseErr with
  | some err => [.closeBody, .logPrintf (" [!] Failed to close response body: " ++ err)]
  | none => [.closeBody]

/-- The method `Client.GetBuilds`. -/
def Client.GetBuilds (c : Client) (w : World) (appSlug branchName workflowName : String) :
    Except String Build × List Event :=
  let requestPath := "apps/" ++ appSlug ++ "/builds?sort_by=running_first&branch=" ++ branchName
    ++ "&workflow=" ++ workflowName ++ "&status=1&limit=1"
  match c.get w requestPath with
  | (.error err, t) => (.error err, t)
  | (.ok resp, t) =>
    if resp.StatusCode ≥ 300 ∨ resp.StatusCode < 200 then
      (.error ("failed to get artifacts with status code (" ++ toString resp.StatusCode
        ++ ") for [workflow: " ++ workflowName ++ ", branch: " ++ branchName ++ "]"),
       t ++ responseBodyCloser resp)
    else
      (w.decodeBuild resp.Body, t ++ [.decodeBody resp.Body] ++ responseBodyCloser resp)

/-- The method `Client.GetLogForBuild`. -/
def Client.GetLogForBuild (c : Client) (w : World) (appSlug buildSlug : String) :
    Except String Logs × List Event :=
  let requestPath := "apps/" ++ appSlug ++ "/builds/" ++ buildSlug ++ "/log"
  match c.get w requestPath with
  | (.error err, t) => (.error err, t)
  | (.ok resp, t) =>
    if resp.StatusCode ≥ 300 ∨ resp.StatusCode < 200 then
      (.error ("failed to get artifacts with status code (" ++ toString resp.StatusCode
        ++ ") for [build_slug: " ++ appSlug ++ ", app_slug: " ++ buildSlug ++ "]"),
       t ++ responseBodyCloser resp)
    else
      (w.decodeLogs resp.Body, t ++ [.decodeBody resp.Body] ++ responseBodyCloser resp)

/-- The function `errNoEnv`. -/
def errNoEnv (env : String) : String :=
  "environment variable (" ++ env ++ ") is not set"

/-- The pattern that `mainE` compiles: `fmt.Sprintf("%s (\\d+.\\d+)+", artifactName)`. -/
def pattern (artifactName : String) : String := artifactName ++ " (\\d+.\\d+)+"

/-- The loop of `mainE` over `logs.LogChunks`. -/
def scanChunks (w : World) (artifactName : String) (re : Regexp.Regex) (numSubexp : Nat) :
    List LogChunk → Outcome × List Event
  | [] => (.returned none, [])
  | line :: rest =>
    match Regexp.FindStringSubmatch re numSubexp line.Chunk with
    | none => scanChunks w artifactName re numSubexp rest
    | some found =>
      if found.length > 0 then
        match found.get? 1 with
        | none =>
          (.panicked (.indexOutOfRange 1 found.length),
           [.logInfof "Exported environment variable:"])
        | some value =>
          let args := ["envman", "add", "--key", artifactName, "--value", value]
          match w.runCommand "bitrise" args with
          | (cmdLog, some err) =>
            (.exited 1,
             [.logInfof "Exported environment variable:", .exec "bitrise" args,
              .stdout ("Failed to expose output with envman, error: " ++ err
                ++ " | output: " ++ cmdLog)])
          | (_, none) =>
            (.returned none,
             [.logInfof "Exported environment variable:", .exec "bitrise" args,
              .stdout ("- " ++ artifactName ++ ": " ++ value ++ "\n")])
      else scanChunks w artifactName re numSubexp rest

/-- The function `mainE`. -/
def mainE (env : Env) (w : World) : Outcome × List Event :=
  let accessTokenKey := "API_AUTH_TOKEN"
  let accessToken := Getenv env accessTokenKey
  if accessToken = "" then (.returned (some (errNoEnv accessTokenKey)), [])
  else
    let appSlugKey := "APP_SLUG"
    let appSlug := Getenv env appSlugKey
    if appSlug = "" then (.returned (some (errNoEnv appSlugKey)), [])
    else
      let workflowNameKey := "WORKFLOW_NAME"
      let workflowName := Getenv env workflowNameKey
      if workflowName = "" then (.returned (some (errNoEnv workflowNameKey)), [])
      else
        let branchName := Getenv env "BITRISE_GIT_BRANCH"
        let artifactNameKey := "ARTIFACT_NAME"
        let artifactName := Getenv env artifactNameKey
        if artifactName = "" then (.returned (some (errNoEnv artifactNameKey)), [])
        else
          let c := New accessToken
          match c.GetBuilds w appSlug branchName workflowName with
          | (.error err, t1) => (.returned (some err), t1)
          | (.ok builds, t1) =>
            let buildSlugMap : GoMap :=
              builds.Data.foldl (fun m build => m.set workflowName build.Slug) []
            match c.GetLogForBuild w appSlug (buildSlugMap.get workflowName) with
            | (.error err, t2) => (.returned (some err), t1 ++ t2)
            | (.ok logs, t2) =>
              match Regexp.compile (pattern artifactName) with
              | .invalid code =>
                (.panicked (.mustCompile (pattern artifactName) code), t1 ++ t2)
              | .unsupported => (.unmodelled, t1 ++ t2)
              | .ok re numSubexp =>
                let r := scanChunks w artifactName re numSubexp logs.LogChunks
                (r.1, t1 ++ t2 ++ r.2)

/-- The function `main`: the exit code of the process. -/
def main (env : Env) (w : World) : ProcessEnd × List Event :=
  match mainE env w with
  | (.returned (some err), t) => (.exit 1, t ++ [.stdout ("Error: " ++ err ++ "\n")])
  | (.returned none, t) => (.exit 0, t)
  | (.exited code, t) => (.exit code, t)
  | (.panicked p, t) => (.panic p, t)
  | (.unmodelled, t) => (.unmodelled, t)

/-! ## A sample run -/

/-- An environment with the four required variables and the branch. -/
def sampleEnv (artifactName : String) : Env := fun key =>
  if key = "API_AUTH_TOKEN" then some "secret"
  else if key = "APP_SLUG" then some "app1"
  else if key = "WORKFLOW_NAME" then some "primary"
  else if key = "BITRISE_GIT_BRANCH" then some "develop"
  else if key = "ARTIFACT_NAME" then some artifactName
  else none

/-- A build record with the given slug. -/
def sampleBuild (slug : String) : BuildData :=
  { Slug := slug, Status := 1, StatusText := "success", IsOnHold := false, Branch := "develop",
    BuildNumber := 7, CommitHash := "", CommitMessage := "", Tag := "",
    TriggeredWorkflow := "primary", StackConfigType := "", StackIdentifier := "" }

/-- A `Logs` value with the given chunks. -/
def sampleLogs (chunks : List String) : Logs :=
  { ExpiringRawLogURL := "", GeneratedLogChunksNum := chunks.length, IsArchived := true,
    LogChunks := chunks.enum.map (fun p => { Chunk := p.2, Position := p.1 }) }

/-- A world in which every request is answered with `status`, the builds
endpoint lists `slugs` and the log endpoint returns `chunks`; the `bitrise`
command succeeds. -/
def sampleWorld (status : Int) (slugs : List String) (chunks : List String) : World :=
  { newRequest := fun _ => none
    roundTrip := fun url _ => .ok { StatusCode := status, Body := url, CloseErr := none }
    decodeBuild := fun _ =>
      .ok { Data := slugs.map sampleBuild,
            Paging := { TotalItemCount := slugs.length, PageItemLimit := 1, Next := "" } }
    decodeLogs := fun _ => .ok (sampleLogs chunks)
    runCommand := fun _ _ => ("", none) }

/-! ## Notions used in the statements -/

/-- The variables that `mainE` requires, in the order in which it reads them. -/
def requiredKeys : List String :=
  ["API_AUTH_TOKEN", "APP_SLUG", "WORKFLOW_NAME", "ARTIFACT_NAME"]

/-- The URL of the builds request. -/
def buildsURL (appSlug branchName workflowName : String) : String :=
  domain ++ "/" ++ apiVersion ++ "/" ++ ("apps/" ++ appSlug
    ++ "/builds?sort_by=running_first&branch=" ++ branchName
    ++ "&workflow=" ++ workflowName ++ "&status=1&limit=1")

/-- The URL of the log request. -/
def logURL (appSlug buildSlug : String) : String :=
  domain ++ "/" ++ apiVersion ++ "/" ++ ("apps/" ++ appSlug ++ "/builds/" ++ buildSlug ++ "/log")

/-- The build slug that `mainE` passes to `GetLogForBuild`: the loop over
`builds.Data` that fills `buildSlugMap`, then the lookup `buildSlugMap[workflowName]`. -/
def selectedSlug (workflowName : String) (builds : Build) : String :=
  GoMap.get (builds.Data.foldl (fun m build => GoMap.set m workflowName build.Slug) [])
    workflowName

/-- The result of `re.FindStringSubmatch(chunk)` for the pattern of the artifact
name; `none` also when the pattern does not compile. -/
def chunkMatches (artifactName chunk : String) : Option (List String) :=
  match Regexp.compile (pattern artifactName) with
  | .ok re numSubexp => Regexp.FindStringSubmatch re numSubexp chunk
  | _ => none

/-- The command line that publishes a value. -/
def publishEvent (artifactName value : String) : Event :=
  .exec "bitrise" ["envman", "add", "--key", artifactName, "--value", value]

/-- An environment in which `APP_SLUG` is missing. -/
def envWithoutSlug : Env := fun key =>
  if key = "API_AUTH_TOKEN" then some "secret"
  else if key = "WORKFLOW_NAME" then some "primary"
  else none

/-- An environment with the four required variables and no `BITRISE_GIT_BRANCH`. -/
def envWithoutBranch : Env := fun key =>
  if key = "BITRISE_GIT_BRANCH" then none else sampleEnv "MyArtifact" key

/-! ## Configuration -/

theorem find_requiredKeys (env : Env) :
    requiredKeys.find? (fun k => Getenv env k == "") =
      if Getenv env "API_AUTH_TOKEN" = "" then some "API_AUTH_TOKEN"
      else if Getenv env "APP_SLUG" = "" then some "APP_SLUG"
      else if Getenv env "WORKFLOW_NAME" = "" then some "WORKFLOW_NAME"
      else if Getenv env "ARTIFACT_NAME" = "" then some "ARTIFACT_NAME"
      else none := by
  have hb : ∀ a : String, ¬ a = "" → (a == "") = false := fun a h => by simpa using h
  by_cases h1 : Getenv env "API_AUTH_TOKEN" = ""
  · simp [requiredKeys, List.find?, h1]
  · by_cases h2 : Getenv env "APP_SLUG" = ""
    · simp [requiredKeys, List.find?, h1, h2, hb _ h1]
    · by_cases h3 : Getenv env "WORKFLOW_NAME" = ""
      · simp [requiredKeys, List.find?, h1, h2, h3, hb _ h1, hb _ h2]
      · by_cases h4 : Getenv env "ARTIFACT_NAME" = ""
        · simp [requiredKeys, List.find?, h1, h2, h3, h4, hb _ h1, hb _ h2, hb _ h3]
        · simp [requiredKeys, List.find?, h1, h2, h3, h4, hb _ h1, hb _ h2, hb _ h3, hb _ h4]

theorem GetBuilds_trace_head (c : Client) (w : World) (appSlug branchName workflowName : String) :
    ∃ t, (c.GetBuilds w appSlug branchName workflowName).2 =
      .newRequest "GET" (buildsURL appSlug branchName workflowName) :: t := by
  unfold Client.GetBuilds Client.get buildsURL
  cases h : w.newRequest (domain ++ "/" ++ apiVersion ++ "/" ++ ("apps/" ++ appSlug
    ++ "/builds?sort_by=running_first&branch=" ++ branchName
    ++ "&workflow=" ++ workflowName ++ "&status=1&limit=1")) with
  | some err => exact ⟨[], by simp [h]⟩
  | none =>
    simp only [h]
    generalize w.roundTrip _ _ = r
    cases r with
    | error e => exact ⟨_, rfl⟩
    | ok resp =>
      simp only
      split <;> exact ⟨_, rfl⟩

theorem GetLogForBuild_trace_head (c : Client) (w : World) (appSlug buildSlug : String) :
    ∃ t, (c.GetLogForBuild w appSlug buildSlug).2 =
      .newRequest "GET" (logURL appSlug buildSlug) :: t := by
  unfold Client.GetLogForBuild Client.get logURL
  cases h : w.newRequest (domain ++ "/" ++ apiVersion ++ "/"
    ++ ("apps/" ++ appSlug ++ "/builds/" ++ buildSlug ++ "/log")) with
  | some err => exact ⟨[], by simp [h]⟩
  | none =>
    simp only [h]
    generalize w.roundTrip _ _ = r
    cases r with
    | error e => exact ⟨_, rfl⟩
    | ok resp =>
      simp only
      split <;> exact ⟨_, rfl⟩

/-- What `mainE` does once the four required variables are known to be set. -/
theorem mainE_configured (env : Env) (w : World)
    (h1 : Getenv env "API_AUTH_TOKEN" ≠ "") (h2 : Getenv env "APP_SLUG" ≠ "")
    (h3 : Getenv env "WORKFLOW_NAME" ≠ "") (h4 : Getenv env "ARTIFACT_NAME" ≠ "") :
    mainE env w =
      match (New (Getenv env "API_AUTH_TOKEN")).GetBuilds w (Getenv env "APP_SLUG")
          (Getenv env "BITRISE_GIT_BRANCH") (Getenv env "WORKFLOW_NAME") with
      | (.error err, t1) => (.returned (some err), t1)
      | (.ok builds, t1) =>
        match (New (Getenv env "API_AUTH_TOKEN")).GetLogForBuild w (Getenv env "APP_SLUG")
            (selectedSlug (Getenv env "WORKFLOW_NAME") builds) with
        | (.error err, t2) => (.returned (some err), t1 ++ t2)
        | (.ok logs, t2) =>
          match Regexp.compile (pattern (Getenv env "ARTIFACT_NAME")) with
          | .invalid code =>
            (.panicked (.mustCompile (pattern (Getenv env "ARTIFACT_NAME")) code), t1 ++ t2)
          | .unsupported => (.unmodelled, t1 ++ t2)
          | .ok re numSubexp =>
            ((scanChunks w (Getenv env "ARTIFACT_NAME") re numSubexp logs.LogChunks).1,
             t1 ++ t2 ++ (scanChunks w (Getenv env "ARTIFACT_NAME") re numSubexp logs.LogChunks).2) := by
  unfold mainE selectedSlug
  simp only [h1, h2, h3, h4, if_false]

/-- C1: when one of `API_AUTH_TOKEN`, `APP_SLUG`, `WORKFLOW_NAME`, `ARTIFACT_NAME`
is unset or empty, `mainE` returns the error naming the first such variable, with
an empty trace (no request, no command), and `main` prints it and exits with
code 1. When the four are set, `mainE` goes on to build the builds request,
whatever `BITRISE_GIT_BRANCH` holds, the empty string included. -/
theorem mainE_missing_configuration (env : Env) (w : World) :
    (∀ key, requiredKeys.find? (fun k => Getenv env k == "") = some key →
      mainE env w = (.returned (some ("environment variable (" ++ key ++ ") is not set")), []) ∧
      main env w =
        (.exit 1, [.stdout ("Error: environment variable (" ++ key ++ ") is not set\n")])) ∧
    (requiredKeys.find? (fun k => Getenv env k == "") = none →
      ∃ t, (mainE env w).2 =
        .newRequest "GET" (buildsURL (Getenv env "APP_SLUG") (Getenv env "BITRISE_GIT_BRANCH")
          (Getenv env "WORKFLOW_NAME")) :: t) := by
  rw [find_requiredKeys]
  by_cases h1 : Getenv env "API_AUTH_TOKEN" = ""
  · refine ⟨fun key hk => ?_, fun hk => by simp [h1] at hk⟩
    simp only [h1, if_true, Option.some.injEq] at hk
    subst hk
    have hE : mainE env w = (.returned (some (errNoEnv "API_AUTH_TOKEN")), []) := by
      unfold mainE; simp only [h1, if_true]
    exact ⟨hE, by unfold main; rw [hE]; rfl⟩
  · by_cases h2 : Getenv env "APP_SLUG" = ""
    · refine ⟨fun key hk => ?_, fun hk => by simp [h1, h2] at hk⟩
      simp only [h1, h2, if_true, if_false, Option.some.injEq] at hk
      subst hk
      have hE : mainE env w = (.returned (some (errNoEnv "APP_SLUG")), []) := by
        unfold mainE; simp only [h1, h2, if_true, if_false]
      exact ⟨hE, by unfold main; rw [hE]; rfl⟩
    · by_cases h3 : Getenv env "WORKFLOW_NAME" = ""
      · refine ⟨fun key hk => ?_, fun hk => by simp [h1, h2, h3] at hk⟩
        simp only [h1, h2, h3, if_true, if_false, Option.some.injEq] at hk
        subst hk
        have hE : mainE env w = (.returned (some (errNoEnv "WORKFLOW_NAME")), []) := by
          unfold mainE; simp only [h1, h2, h3, if_true, if_false]
        exact ⟨hE, by unfold main; rw [hE]; rfl⟩
      · by_cases h4 : Getenv env "ARTIFACT_NAME" = ""
        · refine ⟨fun key hk => ?_, fun hk => by simp [h1, h2, h3, h4] at hk⟩
          simp only [h1, h2, h3, h4, if_true, if_false, Option.some.injEq] at hk
          subst hk
          have hE : mainE env w = (.returned (some (errNoEnv "ARTIFACT_NAME")), []) := by
            unfold mainE; simp only [h1, h2, h3, h4, if_true, if_false]
          exact ⟨hE, by unfold main; rw [hE]; rfl⟩
        · refine ⟨fun key hk => by simp [h1, h2, h3, h4] at hk, fun _ => ?_⟩
          rw [mainE_configured env w h1 h2 h3 h4]
          obtain ⟨t, ht⟩ := GetBuilds_trace_head (New (Getenv env "API_AUTH_TOKEN")) w
            (Getenv env "APP_SLUG") (Getenv env "BITRISE_GIT_BRANCH") (Getenv env "WORKFLOW_NAME")
          generalize (New (Getenv env "API_AUTH_TOKEN")).GetBuilds w (Getenv env "APP_SLUG")
            (Getenv env "BITRISE_GIT_BRANCH") (Getenv env "WORKFLOW_NAME") = r at ht
          obtain ⟨res, t1⟩ := r
          simp only at ht
          subst ht
          cases res with
          | error err => exact ⟨t, rfl⟩
          | ok builds =>
            simp only
            split
            · exact ⟨_, rfl⟩
            · split
              · exact ⟨_, rfl⟩
              · exact ⟨_, rfl⟩
              · exact ⟨_, rfl⟩

theorem mainE_missing_configuration_witness :
    (requiredKeys.find? (fun k => Getenv envWithoutSlug k == "") = some "APP_SLUG" ∧
      mainE envWithoutSlug (sampleWorld 200 ["b1"] []) =
        (.returned (some ("environment variable (" ++ "APP_SLUG" ++ ") is not set")), []) ∧
      main envWithoutSlug (sampleWorld 200 ["b1"] []) =
        (.exit 1, [.stdout ("Error: environment variable (" ++ "APP_SLUG" ++ ") is not set\n")])) ∧
    (requiredKeys.find? (fun k => Getenv envWithoutBranch k == "") = none ∧
      Getenv envWithoutBranch "BITRISE_GIT_BRANCH" = "" ∧
      ∃ t, (mainE envWithoutBranch (sampleWorld 200 ["b1"] [])).2 =
        .newRequest "GET" (buildsURL (Getenv envWithoutBranch "APP_SLUG")
          (Getenv envWithoutBranch "BITRISE_GIT_BRANCH")
          (Getenv envWithoutBranch "WORKFLOW_NAME")) :: t) :=
  ⟨⟨by decide,
    (mainE_missing_configuration envWithoutSlug (sampleWorld 200 ["b1"] [])).1 "APP_SLUG"
      (by decide)⟩,
   ⟨by decide, by decide,
    (mainE_missing_configuration envWithoutBranch (sampleWorld 200 ["b1"] [])).2 (by decide)⟩⟩

/-! ## The API client -/

theorem GetBuilds_of_response (c : Client) (w : World)
    (appSlug branchName workflowName : String) (resp : Response)
    (hreq : w.newRequest (buildsURL appSlug branchName workflowName) = none)
    (hdo : w.roundTrip (buildsURL appSlug branchName workflowName) ("token " ++ c.authToken)
      = .ok resp) :
    c.GetBuilds w appSlug branchName workflowName =
      if resp.StatusCode ≥ 300 ∨ resp.StatusCode < 200 then
        (.error ("failed to get artifacts with status code (" ++ toString resp.StatusCode
          ++ ") for [workflow: " ++ workflowName ++ ", branch: " ++ branchName ++ "]"),
         [.newRequest "GET" (buildsURL appSlug branchName workflowName),
          .httpDo (buildsURL appSlug branchName workflowName) ("token " ++ c.authToken)]
          ++ responseBodyCloser resp)
      else
        (w.decodeBuild resp.Body,
         [.newRequest "GET" (buildsURL appSlug branchName workflowName),
          .httpDo (buildsURL appSlug branchName workflowName) ("token " ++ c.authToken)]
          ++ [.decodeBody resp.Body] ++ responseBodyCloser resp) := by
  unfold buildsURL at hreq hdo
  unfold Client.GetBuilds Client.get buildsURL
  simp only [hreq, hdo]

theorem GetLogForBuild_of_response (c : Client) (w : World)
    (appSlug buildSlug : String) (resp : Response)
    (hreq : w.newRequest (logURL appSlug buildSlug) = none)
    (hdo : w.roundTrip (logURL appSlug buildSlug) ("token " ++ c.authToken) = .ok resp) :
    c.GetLogForBuild w appSlug buildSlug =
      if resp.StatusCode ≥ 300 ∨ resp.StatusCode < 200 then
        (.error ("failed to get artifacts with status code (" ++ toString resp.StatusCode
          ++ ") for [build_slug: " ++ appSlug ++ ", app_slug: " ++ buildSlug ++ "]"),
         [.newRequest "GET" (logURL appSlug buildSlug),
          .httpDo (logURL appSlug buildSlug) ("token " ++ c.authToken)]
          ++ responseBodyCloser resp)
      else
        (w.decodeLogs resp.Body,
         [.newRequest "GET" (logURL appSlug buildSlug),
          .httpDo (logURL appSlug buildSlug) ("token " ++ c.authToken)]
          ++ [.decodeBody resp.Body] ++ responseBodyCloser resp) := by
  unfold logURL at hreq hdo
  unfold Client.GetLogForBuild Client.get logURL
  simp only [hreq, hdo]

theorem responseBodyCloser_no_decode (resp : Response) :
    (responseBodyCloser resp).filter Event.isDecode = [] := by
  unfold responseBodyCloser
  cases resp.CloseErr <;> rfl

/-- C4: after a transport call that succeeded with status `s`, `GetBuilds` and
`GetLogForBuild` return the status-code error exactly when `s < 200` or
`s ≥ 300`, and then the body is not decoded; otherwise the result is that of
the decoder, which is run once on the body. The error of `GetBuilds` carries
`s` in decimal, the workflow name and the branch name; the error of
`GetLogForBuild` carries `s` in decimal, the app slug and the build slug. -/
theorem status_code_policy (c : Client) (w : World)
    (appSlug branchName workflowName buildSlug : String) (resp1 resp2 : Response)
    (hreq1 : w.newRequest (buildsURL appSlug branchName workflowName) = none)
    (hdo1 : w.roundTrip (buildsURL appSlug branchName workflowName) ("token " ++ c.authToken)
      = .ok resp1)
    (hreq2 : w.newRequest (logURL appSlug buildSlug) = none)
    (hdo2 : w.roundTrip (logURL appSlug buildSlug) ("token " ++ c.authToken) = .ok resp2) :
    ((resp1.StatusCode < 200 ∨ resp1.StatusCode ≥ 300) →
      (c.GetBuilds w appSlug branchName workflowName).1 =
        .error ("failed to get artifacts with status code (" ++ toString resp1.StatusCode
          ++ ") for [workflow: " ++ workflowName ++ ", branch: " ++ branchName ++ "]") ∧
      (c.GetBuilds w appSlug branchName workflowName).2.filter Event.isDecode = []) ∧
    (¬ (resp1.StatusCode < 200 ∨ resp1.StatusCode ≥ 300) →
      (c.GetBuilds w appSlug branchName workflowName).1 = w.decodeBuild resp1.Body ∧
      (c.GetBuilds w appSlug branchName workflowName).2.filter Event.isDecode =
        [.decodeBody resp1.Body]) ∧
    ((resp2.StatusCode < 200 ∨ resp2.StatusCode ≥ 300) →
      (c.GetLogForBuild w appSlug buildSlug).1 =
        .error ("failed to get artifacts with status code (" ++ toString resp2.StatusCode
          ++ ") for [build_slug: " ++ appSlug ++ ", app_slug: " ++ buildSlug ++ "]") ∧
      (c.GetLogForBuild w appSlug buildSlug).2.filter Event.isDecode = []) ∧
    (¬ (resp2.StatusCode < 200 ∨ resp2.StatusCode ≥ 300) →
      (c.GetLogForBuild w appSlug buildSlug).1 = w.decodeLogs resp2.Body ∧
      (c.GetLogForBuild w appSlug buildSlug).2.filter Event.isDecode =
        [.decodeBody resp2.Body]) := by
  rw [GetBuilds_of_response c w appSlug branchName workflowName resp1 hreq1 hdo1,
    GetLogForBuild_of_response c w appSlug buildSlug resp2 hreq2 hdo2]
  refine ⟨fun h => ?_, fun h => ?_, fun h => ?_, fun h => ?_⟩
  · rw [if_pos (Or.symm h)]
    exact ⟨rfl, by simp [List.filter, Event.isDecode, responseBodyCloser_no_decode]⟩
  · rw [if_neg (fun h1 => h (Or.symm h1))]
    exact ⟨rfl, by simp [List.filter, Event.isDecode, responseBodyCloser_no_decode]⟩
  · rw [if_pos (Or.symm h)]
    exact ⟨rfl, by simp [List.filter, Event.isDecode, responseBodyCloser_no_decode]⟩
  · rw [if_neg (fun h1 => h (Or.symm h1))]
    exact ⟨rfl, by simp [List.filter, Event.isDecode, responseBodyCloser_no_decode]⟩

theorem status_code_policy_witness :
    (((New "secret").GetBuilds (sampleWorld 404 ["b1"] []) "app1" "develop" "primary").1 =
        .error ("failed to get artifacts with status code (404) for "
          ++ "[workflow: primary, branch: develop]") ∧
      ((New "secret").GetBuilds (sampleWorld 404 ["b1"] []) "app1" "develop" "primary").2.filter
        Event.isDecode = []) ∧
    (((New "secret").GetLogForBuild (sampleWorld 404 ["b1"] []) "app1" "b1").1 =
        .error ("failed to get artifacts with status code (404) for "
          ++ "[build_slug: app1, app_slug: b1]") ∧
      ((New "secret").GetLogForBuild (sampleWorld 404 ["b1"] []) "app1" "b1").2.filter
        Event.isDecode = []) ∧
    ((New "secret").GetBuilds (sampleWorld 199 ["b1"] []) "app1" "develop" "primary").1 =
      .error ("failed to get artifacts with status code (199) for "
        ++ "[workflow: primary, branch: develop]") ∧
    ((New "secret").GetBuilds (sampleWorld 300 ["b1"] []) "app1" "develop" "primary").1 =
      .error ("failed to get artifacts with status code (300) for "
        ++ "[workflow: primary, branch: develop]") ∧
    ((New "secret").GetBuilds (sampleWorld 200 ["b1"] []) "app1" "develop" "primary").2.filter
      Event.isDecode = [.decodeBody (buildsURL "app1" "develop" "primary")] ∧
    ((New "secret").GetBuilds (sampleWorld 299 ["b1"] []) "app1" "develop" "primary").2.filter
      Event.isDecode = [.decodeBody (buildsURL "app1" "develop" "primary")] ∧
    ((New "secret").GetLogForBuild (sampleWorld 199 ["b1"] []) "app1" "b1").1 =
      .error ("failed to get artifacts with status code (199) for "
        ++ "[build_slug: app1, app_slug: b1]") ∧
    ((New "secret").GetLogForBuild (sampleWorld 300 ["b1"] []) "app1" "b1").1 =
      .error ("failed to get artifacts with status code (300) for "
        ++ "[build_slug: app1, app_slug: b1]") ∧
    ((New "secret").GetLogForBuild (sampleWorld 200 ["b1"] []) "app1" "b1").2.filter
      Event.isDecode = [.decodeBody (logURL "app1" "b1")] ∧
    ((New "secret").GetLogForBuild (sampleWorld 299 ["b1"] []) "app1" "b1").2.filter
      Event.isDecode = [.decodeBody (logURL "app1" "b1")] :=
  have h := fun s : Int =>
    status_code_policy (New "secret") (sampleWorld s ["b1"] []) "app1" "develop" "primary" "b1"
      { StatusCode := s, Body := buildsURL "app1" "develop" "primary", CloseErr := none }
      { StatusCode := s, Body := logURL "app1" "b1", CloseErr := none } rfl rfl rfl rfl
  ⟨(h 404).1 (by decide), (h 404).2.2.1 (by decide),
   ((h 199).1 (by decide)).1, ((h 300).1 (by decide)).1,
   ((h 200).2.1 (by decide)).2, ((h 299).2.1 (by decide)).2,
   ((h 199).2.2.1 (by decide)).1, ((h 300).2.2.1 (by decide)).1,
   ((h 200).2.2.2 (by decide)).2, ((h 299).2.2.2 (by decide)).2⟩

/-- C10: in the status-code error of `GetLogForBuild(appSlug, buildSlug)` the
values are swapped against the labels: the app slug is printed after
`build_slug:` and the build slug after `app_slug:`. -/
theorem GetLogForBuild_error_labels_swapped (c : Client) (w : World)
    (appSlug buildSlug : String) (resp : Response)
    (hreq : w.newRequest (logURL appSlug buildSlug) = none)
    (hdo : w.roundTrip (logURL appSlug buildSlug) ("token " ++ c.authToken) = .ok resp)
    (hs : resp.StatusCode < 200 ∨ resp.StatusCode ≥ 300) :
    (c.GetLogForBuild w appSlug buildSlug).1 =
      .error ("failed to get artifacts with status code (" ++ toString resp.StatusCode
        ++ ") for [build_slug: " ++ appSlug ++ ", app_slug: " ++ buildSlug ++ "]") := by
  rw [GetLogForBuild_of_response c w appSlug buildSlug resp hreq hdo, if_pos (Or.symm hs)]

theorem GetLogForBuild_error_labels_swapped_witness :
    ((New "secret").GetLogForBuild (sampleWorld 500 [] []) "the-app" "the-build").1 =
      .error ("failed to get artifacts with status code (500) for "
        ++ "[build_slug: the-app, app_slug: the-build]") :=
  GetLogForBuild_error_labels_swapped (New "secret") (sampleWorld 500 [] []) "the-app" "the-build"
    { StatusCode := 500, Body := logURL "the-app" "the-build", CloseErr := none } rfl rfl
    (by decide)

/-! ## Build selection -/

theorem GoMap_get_set (m : GoMap) (k v : String) : GoMap.get (GoMap.set m k v) k = v := by
  simp [GoMap.get, GoMap.set, List.find?]

theorem selectedSlug_foldl (k : String) (data : List BuildData) (m : GoMap) :
    GoMap.get (data.foldl (fun m build => GoMap.set m k build.Slug) m) k =
      match data.getLast? with
      | some b => b.Slug
      | none => GoMap.get m k := by
  induction data generalizing m with
  | nil => rfl
  | cons b rest ih =>
    rw [List.foldl_cons, ih]
    cases rest with
    | nil => simp [GoMap_get_set]
    | cons b2 rest2 =>
      rw [List.getLast?_cons_cons]
      cases h : (b2 :: rest2).getLast? with
      | none => simp at h
      | some x => rfl

theorem selectedSlug_eq (workflowName : String) (builds : Build) :
    selectedSlug workflowName builds =
      match builds.Data.getLast? with
      | some b => b.Slug
      | none => "" := by
  unfold selectedSlug
  rw [selectedSlug_foldl]
  rfl

/-- After a successful `GetBuilds`, the next thing `mainE` does is to call
`GetLogForBuild` with the app slug and the selected build slug. -/
theorem mainE_trace_after_builds (env : Env) (w : World) (builds : Build) (t1 : List Event)
    (h1 : Getenv env "API_AUTH_TOKEN" ≠ "") (h2 : Getenv env "APP_SLUG" ≠ "")
    (h3 : Getenv env "WORKFLOW_NAME" ≠ "") (h4 : Getenv env "ARTIFACT_NAME" ≠ "")
    (hb : (New (Getenv env "API_AUTH_TOKEN")).GetBuilds w (Getenv env "APP_SLUG")
      (Getenv env "BITRISE_GIT_BRANCH") (Getenv env "WORKFLOW_NAME") = (.ok builds, t1)) :
    ∃ rest, (mainE env w).2 =
      t1 ++ ((New (Getenv env "API_AUTH_TOKEN")).GetLogForBuild w (Getenv env "APP_SLUG")
        (selectedSlug (Getenv env "WORKFLOW_NAME") builds)).2 ++ rest := by
  rw [mainE_configured env w h1 h2 h3 h4, hb]
  simp only
  generalize (New (Getenv env "API_AUTH_TOKEN")).GetLogForBuild w (Getenv env "APP_SLUG")
    (selectedSlug (Getenv env "WORKFLOW_NAME") builds) = r
  obtain ⟨res, t2⟩ := r
  cases res with
  | error err => exact ⟨[], by simp⟩
  | ok logs =>
    simp only
    split
    · exact ⟨[], by simp⟩
    · exact ⟨[], by simp⟩
    · exact ⟨_, rfl⟩

/-- C7, as stated, fails: when the decoded list holds the builds `b1` and `b2`
in this order, the log of `b2` is requested and the log of `b1` is not. -/
theorem first_slug_counterexample :
    (List.map sampleBuild ["b1", "b2"]).head? = some (sampleBuild "b1") ∧
    Event.newRequest "GET" (logURL "app1" "b2") ∈
      (mainE (sampleEnv "MyArtifact") (sampleWorld 200 ["b1", "b2"] ["x"])).2 ∧
    Event.newRequest "GET" (logURL "app1" "b1") ∉
      (mainE (sampleEnv "MyArtifact") (sampleWorld 200 ["b1", "b2"] ["x"])).2 := by
  decide

/-- C7, amended: for a decoded build list with at least one entry, the build
slug passed to `GetLogForBuild` is the slug of the last entry of `Data`; when
the list has exactly one entry, that entry is also the first. -/
theorem log_request_uses_last_slug (env : Env) (w : World) (builds : Build) (t1 : List Event)
    (b : BuildData)
    (h1 : Getenv env "API_AUTH_TOKEN" ≠ "") (h2 : Getenv env "APP_SLUG" ≠ "")
    (h3 : Getenv env "WORKFLOW_NAME" ≠ "") (h4 : Getenv env "ARTIFACT_NAME" ≠ "")
    (hb : (New (Getenv env "API_AUTH_TOKEN")).GetBuilds w (Getenv env "APP_SLUG")
      (Getenv env "BITRISE_GIT_BRANCH") (Getenv env "WORKFLOW_NAME") = (.ok builds, t1))
    (hlast : builds.Data.getLast? = some b) :
    (∃ t rest, (mainE env w).2 =
      t1 ++ (.newRequest "GET" (logURL (Getenv env "APP_SLUG") b.Slug) :: t) ++ rest ∧
      ((New (Getenv env "API_AUTH_TOKEN")).GetLogForBuild w (Getenv env "APP_SLUG") b.Slug).2 =
        .newRequest "GET" (logURL (Getenv env "APP_SLUG") b.Slug) :: t) ∧
    (builds.Data.length = 1 → builds.Data.head? = some b) := by
  constructor
  · obtain ⟨rest, hrest⟩ := mainE_trace_after_builds env w builds t1 h1 h2 h3 h4 hb
    rw [selectedSlug_eq, hlast] at hrest
    obtain ⟨t, ht⟩ := GetLogForBuild_trace_head (New (Getenv env "API_AUTH_TOKEN")) w
      (Getenv env "APP_SLUG") b.Slug
    exact ⟨t, rest, by rw [hrest, ht], ht⟩
  · intro hlen
    match hd : builds.Data, hlen, hlast with
    | [x], _, hl =>
      rw [hd] at hlast
      simpa using hlast

theorem log_request_uses_last_slug_witness :
    ∃ t rest, (mainE (sampleEnv "MyArtifact") (sampleWorld 200 ["b1", "b2", "b3"] ["x"])).2 =
      [.newRequest "GET" (buildsURL "app1" "develop" "primary"),
       .httpDo (buildsURL "app1" "develop" "primary") "token secret",
       .decodeBody (buildsURL "app1" "develop" "primary"), .closeBody]
      ++ (.newRequest "GET" (logURL "app1" "b3") :: t) ++ rest :=
  have h := (log_request_uses_last_slug (sampleEnv "MyArtifact")
    (sampleWorld 200 ["b1", "b2", "b3"] ["x"])
    { Data := List.map sampleBuild ["b1", "b2", "b3"],
      Paging := { TotalItemCount := 3, PageItemLimit := 1, Next := "" } }
    [.newRequest "GET" (buildsURL "app1" "develop" "primary"),
     .httpDo (buildsURL "app1" "develop" "primary") "token secret",
     .decodeBody (buildsURL "app1" "develop" "primary"), .closeBody]
    (sampleBuild "b3") (by decide) (by decide) (by decide) (by decide) rfl rfl).1
  let ⟨t, rest, h1, _⟩ := h
  ⟨t, rest, h1⟩

/-- C8: when the decoded build list is empty, `mainE` does not stop at the
selection: it calls `GetLogForBuild` with the configured app slug and the empty
build slug, which asks for the path `apps/<appSlug>/builds//log`. -/
theorem empty_build_list_requests_empty_slug (env : Env) (w : World) (builds : Build)
    (t1 : List Event)
    (h1 : Getenv env "API_AUTH_TOKEN" ≠ "") (h2 : Getenv env "APP_SLUG" ≠ "")
    (h3 : Getenv env "WORKFLOW_NAME" ≠ "") (h4 : Getenv env "ARTIFACT_NAME" ≠ "")
    (hb : (New (Getenv env "API_AUTH_TOKEN")).GetBuilds w (Getenv env "APP_SLUG")
      (Getenv env "BITRISE_GIT_BRANCH") (Getenv env "WORKFLOW_NAME") = (.ok builds, t1))
    (hempty : builds.Data = []) :
    selectedSlug (Getenv env "WORKFLOW_NAME") builds = "" ∧
    ∃ t rest,
      (mainE env w).2 =
        t1 ++ ((New (Getenv env "API_AUTH_TOKEN")).GetLogForBuild w (Getenv env "APP_SLUG") "").2
          ++ rest ∧
      ((New (Getenv env "API_AUTH_TOKEN")).GetLogForBuild w (Getenv env "APP_SLUG") "").2 =
        .newRequest "GET" ("https://api.bitrise.io/v0.1/" ++
          ("apps/" ++ Getenv env "APP_SLUG" ++ "/builds//log")) :: t := by
  have hsel : selectedSlug (Getenv env "WORKFLOW_NAME") builds = "" := by
    rw [selectedSlug_eq, hempty]; rfl
  refine ⟨hsel, ?_⟩
  obtain ⟨rest, hrest⟩ := mainE_trace_after_builds env w builds t1 h1 h2 h3 h4 hb
  rw [hsel] at hrest
  obtain ⟨t, ht⟩ := GetLogForBuild_trace_head (New (Getenv env "API_AUTH_TOKEN")) w
    (Getenv env "APP_SLUG") ""
  refine ⟨t, rest, hrest, ?_⟩
  rw [ht]
  have hurl : logURL (Getenv env "APP_SLUG") "" =
      "https://api.bitrise.io/v0.1/" ++ ("apps/" ++ Getenv env "APP_SLUG" ++ "/builds//log") := by
    apply String.ext
    simp [logURL, domain, apiVersion, String.data_append]
  rw [hurl]

theorem empty_build_list_requests_empty_slug_witness :
    ∃ t rest,
      (mainE (sampleEnv "MyArtifact") (sampleWorld 200 [] ["x"])).2 =
        [.newRequest "GET" (buildsURL "app1" "develop" "primary"),
         .httpDo (buildsURL "app1" "develop" "primary") "token secret",
         .decodeBody (buildsURL "app1" "develop" "primary"), .closeBody]
        ++ ((New "secret").GetLogForBuild (sampleWorld 200 [] ["x"]) "app1" "").2 ++ rest ∧
      ((New "secret").GetLogForBuild (sampleWorld 200 [] ["x"]) "app1" "").2 =
        .newRequest "GET" "https://api.bitrise.io/v0.1/apps/app1/builds//log" :: t :=
  (empty_build_list_requests_empty_slug (sampleEnv "MyArtifact") (sampleWorld 200 [] ["x"])
    { Data := [], Paging := { TotalItemCount := 0, PageItemLimit := 1, Next := "" } }
    [.newRequest "GET" (buildsURL "app1" "develop" "primary"),
     .httpDo (buildsURL "app1" "develop" "primary") "token secret",
     .decodeBody (buildsURL "app1" "develop" "primary"), .closeBody]
    (by decide) (by decide) (by decide) (by decide) rfl rfl).2

/-! ## The pattern of a literal artifact name -/

namespace Regexp

theorem parseChars_append (st : PState) (a b : List Char) :
    parseChars st (a ++ b) =
      match parseChars st a with
      | .ok st1 => parseChars st1 b
      | .error e => .error e := by
  induction a generalizing st with
  | nil => rfl
  | cons c cs ih =>
    simp only [List.cons_append, parseChars]
    cases step st c with
    | error e => rfl
    | ok st1 => exact ih st1

theorem stepNormal_literal (st : PState) (c : Char) (hc : c ∉ metaChars) :
    stepNormal st c = .ok (st.push (.lit c)) := by
  simp only [metaChars, List.mem_cons, List.mem_nil_iff, or_false, not_or] at hc
  obtain ⟨_, h2, h3, h4, h5, h6, h7, h8, h9, _, h11, _, h13, h14⟩ := hc
  unfold stepNormal
  simp [*]

theorem parseChars_literal (name : List Char) (items : List Regex)
    (h : ∀ c ∈ name, c ∉ metaChars) :
    parseChars (litState items) name = .ok (litState ((name.map Regex.lit).reverse ++ items)) := by
  induction name generalizing items with
  | nil => rfl
  | cons c cs ih =>
    have hstep : step (litState items) c = .ok (litState (.lit c :: items)) := by
      show stepNormal (litState items) c = _
      rw [stepNormal_literal _ _ (h c (List.mem_cons_self _ _))]
      rfl
    simp only [parseChars, hstep]
    rw [ih _ (fun d hd => h d (List.mem_cons_of_mem _ hd))]
    simp

theorem parseChars_value (items : List Regex) :
    parseChars (litState items) [' ', '(', '\\', 'd', '+', '.', '\\', 'd', '+', ')', '+'] =
      .ok { mode := .normal,
            cur := { grp := none, alts := [], items := .plus true valueGroup :: .lit ' ' :: items },
            outer := [], ncap := 1, lastRepeat := true, canLazy := true,
            clsNeg := false, clsRanges := [] } := by
  rfl

theorem pattern_toList (artifactName : String) :
    (pattern artifactName).toList =
      artifactName.toList ++ [' ', '(', '\\', 'd', '+', '.', '\\', 'd', '+', ')', '+'] := by
  unfold pattern
  rw [String.toList, String.data_append]
  rfl

theorem compile_literal (artifactName : String) (h : literalChars artifactName.toList = true) :
    compile (pattern artifactName) = .ok (literalPattern artifactName.toList) 1 := by
  have hmem : ∀ c ∈ artifactName.toList, c ∉ metaChars := by
    intro c hc
    have := List.all_eq_true.mp h c hc
    simpa using this
  unfold compile
  rw [pattern_toList, parseChars_append]
  have h0 : PState.init = litState [] := rfl
  rw [h0, parseChars_literal _ _ hmem]
  simp only
  rw [parseChars_value]
  simp [finish, finishNormal, Frame.close, mkAlt, literalPattern, List.reverse_cons]

/-! ## What the matcher does on the pattern of a literal name -/

theorem matchAt_digit_class (s : List Char) (caps : Caps) :
    matchAt (.cls false digitRanges) s caps =
      match s with
      | [] => []
      | d :: rest => if isDigit d then [(rest, caps)] else [] := by
  cases s with
  | nil => rfl
  | cons d rest =>
    simp only [matchAt, isDigit]
    by_cases h : inRanges d digitRanges = true <;> simp [h]

theorem starLoop_digits (fuel : Nat) (s : List Char) (caps : Caps) (h : s.length < fuel) :
    starLoop digitStep true fuel s caps =
      (digitRests s).map (fun r => (r, caps)) ++ [(s, caps)] := by
  induction fuel generalizing s with
  | zero => omega
  | succ fuel ih =>
    rw [starLoop]
    cases s with
    | nil => simp [digitStep, matchAt, digitRests]
    | cons d rest =>
      rw [digitStep, matchAt_digit_class]
      cases hd : isDigit d with
      | false => simp [digitRests, hd]
      | true =>
        have hlen : rest.length < fuel := by simpa using h
        simp [digitRests, hd, ih rest hlen]

theorem matchAt_digits (s : List Char) (caps : Caps) :
    matchAt digits s caps = (digitRests s).map (fun r => (r, caps)) := by
  unfold digits
  rw [matchAt]
  show (matchAt (.cls false digitRanges) s caps).flatMap
    (fun t => starLoop digitStep true (t.1.length + 1) t.1 t.2) = _
  rw [matchAt_digit_class]
  cases s with
  | nil => simp [digitRests]
  | cons d rest =>
    cases hd : isDigit d with
    | false => simp [digitRests, hd]
    | true => simp [digitRests, hd, starLoop_digits]

theorem mem_digitRests {s r : List Char} (h : r ∈ digitRests s) :
    ∃ ds, s = ds ++ r ∧ ds ≠ [] ∧ ds.all isDigit = true := by
  induction s with
  | nil => simp [digitRests] at h
  | cons c s ih =>
    simp only [digitRests] at h
    cases hc : isDigit c with
    | false => simp [hc] at h
    | true =>
      simp only [hc, if_true, List.mem_append, List.mem_singleton] at h
      rcases h with h | h
      · obtain ⟨ds, hv, _, hall⟩ := ih h
        exact ⟨c :: ds, by rw [hv]; simp, by simp, by simp [hc, hall]⟩
      · exact ⟨[c], by rw [h]; simp, by simp, by simp [hc]⟩

theorem head_digitRests {s r : List Char} (h : (digitRests s).head? = some r) :
    digitRests r = [] := by
  induction s with
  | nil => simp [digitRests] at h
  | cons c s ih =>
    simp only [digitRests] at h
    cases hc : isDigit c with
    | false => simp [hc] at h
    | true =>
      simp only [hc, if_true] at h
      cases hs : digitRests s with
      | nil =>
        simp only [hs, List.nil_append, List.head?_cons, Option.some.injEq] at h
        rw [← h]; exact hs
      | cons x xs =>
        simp only [hs, List.cons_append, List.head?_cons, Option.some.injEq] at h
        exact ih (by rw [hs, h]; rfl)

theorem head_flatMap {α β : Type} (l : List α) (f : α → List β) (b : β)
    (h : (l.flatMap f).head? = some b) : ∃ a ∈ l, (f a).head? = some b := by
  induction l with
  | nil => simp at h
  | cons a l ih =>
    simp only [List.flatMap_cons] at h
    cases hf : f a with
    | nil =>
      rw [hf, List.nil_append] at h
      obtain ⟨a1, ha1, hb⟩ := ih h
      exact ⟨a1, List.mem_cons_of_mem _ ha1, hb⟩
    | cons x xs =>
      rw [hf, List.cons_append, List.head?_cons] at h
      exact ⟨a, List.mem_cons_self _ _, by rw [hf]; exact h⟩

theorem ValueShape.exists_digit {v : List Char} (h : ValueShape v) :
    ∃ d ∈ v, isDigit d = true := by
  obtain ⟨d1, c, d2, hv, hne, hall, _⟩ := h
  cases d1 with
  | nil => exact absurd rfl hne
  | cons d ds =>
    refine ⟨d, by rw [hv]; simp, ?_⟩
    simp only [List.all_cons, Bool.and_eq_true] at hall
    exact hall.1

theorem mem_valueRests {s r : List Char} (h : r ∈ valueRests s) :
    ∃ v, s = v ++ r ∧ ValueShape v := by
  unfold valueRests at h
  obtain ⟨r1, hr1, hr⟩ := List.mem_flatMap.mp h
  obtain ⟨d1, hs, hne1, hall1⟩ := mem_digitRests hr1
  cases r1 with
  | nil => simp [dotRests] at hr
  | cons c r2 =>
    simp only [dotRests] at hr
    by_cases hc : c = '\n'
    · simp [hc] at hr
    · simp only [hc, if_false] at hr
      obtain ⟨d2, hs2, hne2, hall2⟩ := mem_digitRests hr
      exact ⟨d1 ++ c :: d2, by rw [hs, hs2]; simp, d1, c, d2, rfl, hne1, hall1, hc, hne2, hall2⟩

theorem head_valueRests {s r : List Char} (h : (valueRests s).head? = some r) :
    valueRests r = [] := by
  unfold valueRests at h
  obtain ⟨r1, _, hr⟩ := head_flatMap _ _ _ h
  have hr0 : digitRests r = [] := by
    cases r1 with
    | nil => simp [dotRests] at hr
    | cons c r2 =>
      simp only [dotRests] at hr
      by_cases hc : c = '\n'
      · simp [hc] at hr
      · simp only [hc, if_false] at hr
        exact head_digitRests hr
  simp [valueRests, hr0]

theorem head_flatMap_of_ne_nil {α β : Type} (l : List α) (f : α → List β)
    (hf : ∀ a, f a ≠ []) (b : β) (h : (l.flatMap f).head? = some b) :
    ∃ a, l.head? = some a ∧ (f a).head? = some b := by
  cases l with
  | nil => simp at h
  | cons a l =>
    simp only [List.flatMap_cons] at h
    cases hfa : f a with
    | nil => exact absurd hfa (hf a)
    | cons x xs =>
      rw [hfa, List.cons_append, List.head?_cons] at h
      exact ⟨a, rfl, by rw [hfa]; exact h⟩

theorem flatMap_eta (l : List Thread) : l.flatMap (fun t => [(t.1, t.2)]) = l := by
  induction l with
  | nil => rfl
  | cons a l ih => simp [List.flatMap_cons, ih]

theorem matchAt_seq_empty (r : Regex) (s : List Char) (caps : Caps) :
    matchAt (.seq r .empty) s caps = matchAt r s caps := by
  rw [matchAt]
  exact flatMap_eta _

theorem take_length_sub (a b : List Char) :
    (a ++ b).take ((a ++ b).length - b.length) = a := by
  rw [List.length_append, Nat.add_sub_cancel]
  exact List.take_left' rfl

theorem matchAt_dot_digits (s : List Char) (caps : Caps) :
    matchAt (.seq .any (.seq digits .empty)) s caps = (dotRests s).map (fun r => (r, caps)) := by
  rw [matchAt]
  cases s with
  | nil => rfl
  | cons c rest =>
    have hany : matchAt .any (c :: rest) caps = if c = '\n' then [] else [(rest, caps)] := rfl
    rw [hany]
    by_cases hc : c = '\n'
    · simp [hc, dotRests]
    · simp only [hc, if_false, List.flatMap_cons, List.flatMap_nil, List.append_nil, dotRests]
      rw [matchAt_seq_empty, matchAt_digits]

theorem flatMap_dotRests (l : List (List Char)) (caps : Caps) :
    (l.map (fun r => (r, caps))).flatMap
        (fun t => matchAt (.seq .any (.seq digits .empty)) t.1 t.2) =
      (l.flatMap dotRests).map (fun r => (r, caps)) := by
  induction l with
  | nil => rfl
  | cons r l ih =>
    rw [List.map_cons, List.flatMap_cons, ih, matchAt_dot_digits, List.flatMap_cons,
      List.map_append]

theorem matchAt_valueGroup (s : List Char) (caps : Caps) :
    matchAt valueGroup s caps =
      (valueRests s).map (fun r => (r, (1, s.take (s.length - r.length)) :: caps)) := by
  unfold valueGroup
  rw [matchAt, matchAt, matchAt_digits, flatMap_dotRests, List.map_map]
  rfl

theorem head_matchAt_values (s : List Char) (caps : Caps) (t : Thread)
    (h : (matchAt (.plus true valueGroup) s caps).head? = some t) :
    ∃ r, (valueRests s).head? = some r ∧ t = (r, (1, s.take (s.length - r.length)) :: caps) := by
  rw [matchAt] at h
  have hne : ∀ a : Thread,
      starLoop (fun s1 c1 => matchAt valueGroup s1 c1) true (a.1.length + 1) a.1 a.2 ≠ [] := by
    intro a
    rw [starLoop]
    simp
  obtain ⟨t1, ht1, hloop⟩ := head_flatMap_of_ne_nil _ _ hne t h
  rw [matchAt_valueGroup, List.head?_map] at ht1
  cases hr : (valueRests s).head? with
  | none => simp [hr] at ht1
  | some r =>
    simp only [hr, Option.map_some', Option.some.injEq] at ht1
    refine ⟨r, rfl, ?_⟩
    have hnil : matchAt valueGroup t1.1 t1.2 = [] := by
      rw [matchAt_valueGroup, ← ht1]
      simp [head_valueRests hr]
    rw [starLoop] at hloop
    simp only [hnil, List.filter_nil, List.flatMap_nil, List.nil_append, if_true,
      List.head?_cons, Option.some.injEq] at hloop
    rw [← hloop, ← ht1]

theorem dropLits_some {name s r : List Char} (h : dropLits name s = some r) :
    s = name ++ r := by
  induction name generalizing s with
  | nil => simp only [dropLits, Option.some.injEq] at h; simp [h]
  | cons c cs ih =>
    cases s with
    | nil => simp [dropLits] at h
    | cons d s =>
      simp only [dropLits] at h
      by_cases hd : d = c
      · simp only [hd, if_true] at h
        rw [hd, ih h]; rfl
      · simp [hd] at h

theorem matchAt_lits (name : List Char) (rs : List Regex) (s : List Char) (caps : Caps) :
    matchAt (mkSeq (name.map Regex.lit ++ rs)) s caps =
      match dropLits name s with
      | some r => matchAt (mkSeq rs) r caps
      | none => [] := by
  induction name generalizing s with
  | nil => rfl
  | cons c cs ih =>
    have hseq : mkSeq ((c :: cs).map Regex.lit ++ rs) =
        .seq (.lit c) (mkSeq (cs.map Regex.lit ++ rs)) := rfl
    rw [hseq, matchAt]
    cases s with
    | nil => simp [matchAt, dropLits]
    | cons d s =>
      by_cases hd : d = c
      · simp [matchAt, dropLits, hd, ih]
      · simp [matchAt, dropLits, hd]

theorem head_matchAt_literalPattern (name s : List Char) (t : Thread)
    (h : (matchAt (literalPattern name) s []).head? = some t) :
    ∃ v, s = name ++ ' ' :: v ++ t.1 ∧ ValueShape v ∧ t.2 = [(1, v)] := by
  have hpat : literalPattern name =
      mkSeq ((name ++ [' ']).map Regex.lit ++ [.plus true valueGroup]) := by
    simp [literalPattern]
  rw [hpat, matchAt_lits] at h
  cases hdrop : dropLits (name ++ [' ']) s with
  | none => simp [hdrop] at h
  | some s2 =>
    simp only [hdrop] at h
    have hs : s = (name ++ [' ']) ++ s2 := dropLits_some hdrop
    have hone : matchAt (mkSeq [.plus true valueGroup]) s2 [] =
        matchAt (.plus true valueGroup) s2 [] := by
      exact matchAt_seq_empty _ _ _
    rw [hone] at h
    obtain ⟨r, hr, ht⟩ := head_matchAt_values s2 [] t h
    obtain ⟨v, hs2, hv⟩ := mem_valueRests (List.mem_of_mem_head? hr)
    refine ⟨v, ?_, hv, ?_⟩
    · rw [hs, hs2, ht]; simp
    · have htake := take_length_sub v r
      rw [ht, hs2]
      simp only [htake]

theorem findFrom_some (re : Regex) (n : Nat) (s : List Char) (found : List String)
    (h : findFrom re n s = some found) :
    ∃ pre r t, s = pre ++ r ∧ (matchAt re r []).head? = some t ∧ found = submatches n r t := by
  induction s with
  | nil =>
    simp only [findFrom] at h
    cases hm : (matchAt re [] []).head? with
    | none => simp [hm] at h
    | some t =>
      simp only [hm, Option.some.injEq] at h
      exact ⟨[], [], t, rfl, hm, h.symm⟩
  | cons c rest ih =>
    simp only [findFrom] at h
    cases hm : (matchAt re (c :: rest) []).head? with
    | none =>
      simp only [hm] at h
      obtain ⟨pre, r, t, hs, ht, hf⟩ := ih h
      exact ⟨c :: pre, r, t, by rw [hs]; rfl, ht, hf⟩
    | some t =>
      simp only [hm, Option.some.injEq] at h
      exact ⟨[], c :: rest, t, rfl, hm, h.symm⟩

/-- With a name free of metacharacters, a match is the name, one space and a
value of the form digits, one character, digits; the value is what group 1 holds. -/
theorem findFrom_literal (name chunk : List Char) (found : List String)
    (h : findFrom (literalPattern name) 1 chunk = some found) :
    ∃ pre v post, chunk = pre ++ (name ++ ' ' :: v) ++ post ∧ ValueShape v ∧
      found = [String.mk (name ++ ' ' :: v), String.mk v] := by
  obtain ⟨pre, r, t, hs, ht, hf⟩ := findFrom_some _ _ _ _ h
  obtain ⟨v, hr, hv, hcap⟩ := head_matchAt_literalPattern name r t ht
  refine ⟨pre, v, t.1, ?_, hv, ?_⟩
  · rw [hs, hr]; simp
  · rw [hf]
    have htake : r.take (r.length - t.1.length) = name ++ ' ' :: v := by
      have hr2 : r = (name ++ ' ' :: v) ++ t.1 := hr
      have hlen := take_length_sub (name ++ ' ' :: v) t.1
      rw [← hr2] at hlen
      exact hlen
    rw [submatches, htake, hcap]
    rfl

/-- A chunk without a digit does not match the pattern of a literal name. -/
theorem findFrom_literal_no_digit (name chunk : List Char)
    (h : ∀ c ∈ chunk, isDigit c = false) :
    findFrom (literalPattern name) 1 chunk = none := by
  cases hf : findFrom (literalPattern name) 1 chunk with
  | none => rfl
  | some found =>
    obtain ⟨pre, v, post, hc, hv, _⟩ := findFrom_literal name chunk found hf
    obtain ⟨d, hd, hdig⟩ := hv.exists_digit
    have hmem : d ∈ chunk := by rw [hc]; simp [hd]
    rw [h d hmem] at hdig
    cases hdig

end Regexp

/-! ## Extraction and publication -/

theorem responseBodyCloser_no_exec (resp : Response) :
    (responseBodyCloser resp).filter Event.isExec = [] := by
  unfold responseBodyCloser
  cases resp.CloseErr <;> rfl

theorem GetBuilds_no_exec (c : Client) (w : World) (appSlug branchName workflowName : String) :
    (c.GetBuilds w appSlug branchName workflowName).2.filter Event.isExec = [] := by
  unfold Client.GetBuilds Client.get
  cases h : w.newRequest (domain ++ "/" ++ apiVersion ++ "/" ++ ("apps/" ++ appSlug
    ++ "/builds?sort_by=running_first&branch=" ++ branchName
    ++ "&workflow=" ++ workflowName ++ "&status=1&limit=1")) with
  | some err => simp [h, List.filter, Event.isExec]
  | none =>
    simp only [h]
    generalize w.roundTrip _ _ = r2
    cases r2 with
    | error e => rfl
    | ok resp =>
      simp only
      split <;> simp [List.filter, Event.isExec, responseBodyCloser_no_exec]

theorem GetLogForBuild_no_exec (c : Client) (w : World) (appSlug buildSlug : String) :
    (c.GetLogForBuild w appSlug buildSlug).2.filter Event.isExec = [] := by
  unfold Client.GetLogForBuild Client.get
  cases h : w.newRequest (domain ++ "/" ++ apiVersion ++ "/"
    ++ ("apps/" ++ appSlug ++ "/builds/" ++ buildSlug ++ "/log")) with
  | some err => simp [h, List.filter, Event.isExec]
  | none =>
    simp only [h]
    generalize w.roundTrip _ _ = r2
    cases r2 with
    | error e => rfl
    | ok resp =>
      simp only
      split <;> simp [List.filter, Event.isExec, responseBodyCloser_no_exec]

theorem scanChunks_no_match (w : World) (artifactName : String) (re : Regexp.Regex) (n : Nat)
    (chunks : List LogChunk)
    (h : ∀ l ∈ chunks, Regexp.FindStringSubmatch re n l.Chunk = none) :
    scanChunks w artifactName re n chunks = (.returned none, []) := by
  induction chunks with
  | nil => rfl
  | cons l rest ih =>
    rw [scanChunks, h l (List.mem_cons_self _ _)]
    exact ih (fun l2 hl2 => h l2 (List.mem_cons_of_mem _ hl2))

theorem chunkMatches_literal (artifactName chunk : String)
    (hlit : Regexp.literalChars artifactName.toList = true) :
    chunkMatches artifactName chunk =
      Regexp.findFrom (Regexp.literalPattern artifactName.toList) 1 chunk.toList := by
  unfold chunkMatches
  rw [Regexp.compile_literal artifactName hlit]
  rfl

/-- C3, as stated, fails: the artifact name `here|x` is not empty, and with it
the chunk `nothing here` matches (the alternative `here`), so that the
publishing tool is run, with the empty value. -/
theorem alternation_name_counterexample :
    chunkMatches "here|x" "nothing here" = some ["here", ""] ∧
    (mainE (sampleEnv "here|x") (sampleWorld 200 ["b1"] ["nothing here"])).2.filter
      Event.isExec = [publishEvent "here|x" ""] := by
  decide

/-- C3, amended: for the chunk sequence `["nothing here"]` and every artifact
name free of pattern metacharacters, no chunk matches, no command is run,
`mainE` returns nil and the process exits with code 0. -/
theorem no_match_exits_zero (env : Env) (w : World) (builds : Build) (logs : Logs)
    (t1 t2 : List Event)
    (h1 : Getenv env "API_AUTH_TOKEN" ≠ "") (h2 : Getenv env "APP_SLUG" ≠ "")
    (h3 : Getenv env "WORKFLOW_NAME" ≠ "") (h4 : Getenv env "ARTIFACT_NAME" ≠ "")
    (hlit : Regexp.literalChars (Getenv env "ARTIFACT_NAME").toList = true)
    (hb : (New (Getenv env "API_AUTH_TOKEN")).GetBuilds w (Getenv env "APP_SLUG")
      (Getenv env "BITRISE_GIT_BRANCH") (Getenv env "WORKFLOW_NAME") = (.ok builds, t1))
    (hl : (New (Getenv env "API_AUTH_TOKEN")).GetLogForBuild w (Getenv env "APP_SLUG")
      (selectedSlug (Getenv env "WORKFLOW_NAME") builds) = (.ok logs, t2))
    (hchunks : logs.LogChunks.map (fun l => l.Chunk) = ["nothing here"]) :
    (∀ l ∈ logs.LogChunks, chunkMatches (Getenv env "ARTIFACT_NAME") l.Chunk = none) ∧
    mainE env w = (.returned none, t1 ++ t2) ∧
    (mainE env w).2.filter Event.isExec = [] ∧
    main env w = (.exit 0, t1 ++ t2) := by
  have hnone : ∀ l ∈ logs.LogChunks,
      chunkMatches (Getenv env "ARTIFACT_NAME") l.Chunk = none := by
    intro l hmem
    have hc : l.Chunk ∈ logs.LogChunks.map (fun l => l.Chunk) := List.mem_map_of_mem _ hmem
    rw [hchunks, List.mem_singleton] at hc
    rw [chunkMatches_literal _ _ hlit, hc]
    exact Regexp.findFrom_literal_no_digit _ _ (by decide)
  have hE : mainE env w = (.returned none, t1 ++ t2) := by
    rw [mainE_configured env w h1 h2 h3 h4, hb]
    simp only [hl, Regexp.compile_literal _ hlit]
    have hscan := scanChunks_no_match w (Getenv env "ARTIFACT_NAME")
      (Regexp.literalPattern (Getenv env "ARTIFACT_NAME").toList) 1 logs.LogChunks
      (fun l hmem => by
        have := hnone l hmem
        rw [chunkMatches_literal _ _ hlit] at this
        exact this)
    rw [hscan]
    simp
  have hx1 := GetBuilds_no_exec (New (Getenv env "API_AUTH_TOKEN")) w (Getenv env "APP_SLUG")
    (Getenv env "BITRISE_GIT_BRANCH") (Getenv env "WORKFLOW_NAME")
  have hx2 := GetLogForBuild_no_exec (New (Getenv env "API_AUTH_TOKEN")) w
    (Getenv env "APP_SLUG") (selectedSlug (Getenv env "WORKFLOW_NAME") builds)
  rw [hb] at hx1
  rw [hl] at hx2
  simp only at hx1 hx2
  refine ⟨hnone, hE, ?_, ?_⟩
  · rw [hE]
    simp only [List.filter_append, hx1, hx2, List.append_nil]
  · unfold main
    rw [hE]

theorem no_match_exits_zero_witness :
    chunkMatches "MyArtifact" "nothing here" = none ∧
    main (sampleEnv "MyArtifact") (sampleWorld 200 ["b1"] ["nothing here"]) =
      (.exit 0,
       [.newRequest "GET" (buildsURL "app1" "develop" "primary"),
        .httpDo (buildsURL "app1" "develop" "primary") "token secret",
        .decodeBody (buildsURL "app1" "develop" "primary"), .closeBody]
       ++ [.newRequest "GET" (logURL "app1" "b1"),
        .httpDo (logURL "app1" "b1") "token secret",
        .decodeBody (logURL "app1" "b1"), .closeBody]) :=
  have h := no_match_exits_zero (sampleEnv "MyArtifact")
    (sampleWorld 200 ["b1"] ["nothing here"])
    { Data := [sampleBuild "b1"],
      Paging := { TotalItemCount := 1, PageItemLimit := 1, Next := "" } }
    (sampleLogs ["nothing here"])
    [.newRequest "GET" (buildsURL "app1" "develop" "primary"),
     .httpDo (buildsURL "app1" "develop" "primary") "token secret",
     .decodeBody (buildsURL "app1" "develop" "primary"), .closeBody]
    [.newRequest "GET" (logURL "app1" "b1"),
     .httpDo (logURL "app1" "b1") "token secret",
     .decodeBody (logURL "app1" "b1"), .closeBody]
    (by decide) (by decide) (by decide) (by decide) (by decide) rfl rfl (by decide)
  ⟨h.1 { Chunk := "nothing here", Position := 0 } (by decide), h.2.2.2⟩

/-- C5 at the failing inputs: the dot of the pattern is not escaped, so that the
chunk `MyArtifact 1a2` yields the value `1a2` and the chunk `MyArtifact 123`
yields `123`; the first is published as it stands. -/
theorem unescaped_dot_values :
    chunkMatches "MyArtifact" "MyArtifact 1a2" = some ["MyArtifact 1a2", "1a2"] ∧
    chunkMatches "MyArtifact" "MyArtifact 123" = some ["MyArtifact 123", "123"] ∧
    (mainE (sampleEnv "MyArtifact") (sampleWorld 200 ["b1"] ["MyArtifact 1a2"])).2.filter
      Event.isExec = [publishEvent "MyArtifact" "1a2"] := by
  decide

/-- C6, as stated, fails: with the artifact name `v[1]` the chunk `v[1] 2.5`,
which contains the name verbatim, does not match, and the chunk `v1 2.5`,
which does not contain it, matches and yields `2.5`. -/
theorem bracket_name_counterexample :
    chunkMatches "v[1]" "v[1] 2.5" = none ∧
    chunkMatches "v[1]" "v1 2.5" = some ["v1 2.5", "2.5"] ∧
    ¬ ("v[1]".toList <:+: "v1 2.5".toList) := by
  decide

/-- C6, amended: an artifact name free of pattern metacharacters is matched as
a literal substring: a chunk matches only if it contains the name verbatim,
followed at once by one space and the value, which is what is captured; the
value is a run of digits, one character other than a newline, and a run of
digits. A name with metacharacters is read as a pattern: with `v[1]` the chunk
`v1 2.5` matches and yields `2.5`, and the chunk `v[1] 2.5` does not match. -/
theorem literal_name_matches_verbatim (artifactName chunk : String) (found : List String)
    (hlit : Regexp.literalChars artifactName.toList = true)
    (h : chunkMatches artifactName chunk = some found) :
    (∃ pre value post : String,
      chunk = pre ++ artifactName ++ " " ++ value ++ post ∧
      Regexp.ValueShape value.toList ∧
      found = [artifactName ++ " " ++ value, value]) ∧
    chunkMatches "v[1]" "v1 2.5" = some ["v1 2.5", "2.5"] ∧
    chunkMatches "v[1]" "v[1] 2.5" = none := by
  refine ⟨?_, by decide, by decide⟩
  rw [chunkMatches_literal _ _ hlit] at h
  obtain ⟨pre, v, post, hc, hv, hf⟩ := Regexp.findFrom_literal _ _ _ h
  refine ⟨String.mk pre, String.mk v, String.mk post, ?_, hv, ?_⟩
  · apply String.ext
    simp only [String.data_append]
    exact hc.trans (by simp)
  · rw [hf]
    congr 1
    · apply String.ext
      simp [String.data_append]

theorem literal_name_matches_verbatim_witness :
    ∃ pre value post : String,
      "xx MyArtifact 2.5 build" = pre ++ "MyArtifact" ++ " " ++ value ++ post ∧
      Regexp.ValueShape value.toList ∧
      ["MyArtifact 2.5", "2.5"] = ["MyArtifact" ++ " " ++ value, value] :=
  (literal_name_matches_verbatim "MyArtifact" "xx MyArtifact 2.5 build"
    ["MyArtifact 2.5", "2.5"] (by decide) (by decide)).1

/-! ## An artifact name that is not a valid pattern -/

/-- C9: the artifact name `(` passes the non-empty check, but the pattern
`( (\d+.\d+)+` built from it is rejected (missing closing parenthesis); once both
API calls have succeeded `mainE` neither returns nil nor returns an error: it
panics in `regexp.MustCompile`, and `main` does not turn this into exit code 1. -/
theorem open_paren_name_panics (env : Env) (w : World) (builds : Build) (logs : Logs)
    (t1 t2 : List Event)
    (h1 : Getenv env "API_AUTH_TOKEN" ≠ "") (h2 : Getenv env "APP_SLUG" ≠ "")
    (h3 : Getenv env "WORKFLOW_NAME" ≠ "") (h4 : Getenv env "ARTIFACT_NAME" = "(")
    (hb : (New (Getenv env "API_AUTH_TOKEN")).GetBuilds w (Getenv env "APP_SLUG")
      (Getenv env "BITRISE_GIT_BRANCH") (Getenv env "WORKFLOW_NAME") = (.ok builds, t1))
    (hl : (New (Getenv env "API_AUTH_TOKEN")).GetLogForBuild w (Getenv env "APP_SLUG")
      (selectedSlug (Getenv env "WORKFLOW_NAME") builds) = (.ok logs, t2)) :
    Getenv env "ARTIFACT_NAME" ≠ "" ∧
    pattern (Getenv env "ARTIFACT_NAME") = "( (\\d+.\\d+)+" ∧
    Regexp.compile (pattern (Getenv env "ARTIFACT_NAME")) = .invalid .missingParen ∧
    mainE env w = (.panicked (.mustCompile "( (\\d+.\\d+)+" .missingParen), t1 ++ t2) ∧
    main env w = (.panic (.mustCompile "( (\\d+.\\d+)+" .missingParen), t1 ++ t2) ∧
    (main env w).1 ≠ .exit 1 := by
  have hne : Getenv env "ARTIFACT_NAME" ≠ "" := by rw [h4]; decide
  have hpat : pattern (Getenv env "ARTIFACT_NAME") = "( (\\d+.\\d+)+" := by rw [h4]; decide
  have hcomp : Regexp.compile (pattern (Getenv env "ARTIFACT_NAME")) = .invalid .missingParen := by
    rw [h4]; decide
  have hE : mainE env w =
      (.panicked (.mustCompile "( (\\d+.\\d+)+" .missingParen), t1 ++ t2) := by
    rw [mainE_configured env w h1 h2 h3 hne, hb]
    simp only [hl]
    rw [hcomp]
    simp only [hpat]
  have hM : main env w = (.panic (.mustCompile "( (\\d+.\\d+)+" .missingParen), t1 ++ t2) := by
    unfold main
    rw [hE]
  refine ⟨hne, hpat, hcomp, hE, hM, ?_⟩
  rw [hM]
  exact fun h => ProcessEnd.noConfusion h

theorem open_paren_name_panics_witness :
    main (sampleEnv "(") (sampleWorld 200 ["b1"] ["MyArtifact 2.5"]) =
      (.panic (.mustCompile "( (\\d+.\\d+)+" .missingParen),
       [.newRequest "GET" (buildsURL "app1" "develop" "primary"),
        .httpDo (buildsURL "app1" "develop" "primary") "token secret",
        .decodeBody (buildsURL "app1" "develop" "primary"), .closeBody]
       ++ [.newRequest "GET" (logURL "app1" "b1"),
        .httpDo (logURL "app1" "b1") "token secret",
        .decodeBody (logURL "app1" "b1"), .closeBody]) :=
  (open_paren_name_panics (sampleEnv "(") (sampleWorld 200 ["b1"] ["MyArtifact 2.5"])
    { Data := [sampleBuild "b1"],
      Paging := { TotalItemCount := 1, PageItemLimit := 1, Next := "" } }
    (sampleLogs ["MyArtifact 2.5"])
    [.newRequest "GET" (buildsURL "app1" "develop" "primary"),
     .httpDo (buildsURL "app1" "develop" "primary") "token secret",
     .decodeBody (buildsURL "app1" "develop" "primary"), .closeBody]
    [.newRequest "GET" (logURL "app1" "b1"),
     .httpDo (logURL "app1" "b1") "token secret",
     .decodeBody (logURL "app1" "b1"), .closeBody]
    (by decide) (by decide) (by decide) (by decide) rfl rfl).2.2.2.2.1

end LogExtract
